import Mathlib

/-!
Verification of the paper-trading copy-trader's trade replication and
position lifecycle engine.

The development shallowly embeds the TypeScript sources:
* `src/utils/ticks.ts` — integer tick arithmetic (`toTick`, `fromTick`, `clampTick`);
* `LedgerService` — the durable ledger (`updatePosition`, `updateRealTimePrice`,
  `updatePositionState`, `updateMarketCache`);
* `TradingEngine` — the centralized close (`tryClosePosition`, `getPriority`),
  the copy-trade replication path (`processAutoTrade`) and the REST price
  fallback stage of the polling loop;
* `SlippageCalculator.calculateExpectedSlippage`.

Prices and sizes are JavaScript numbers in the source; they are embedded as
rationals (`ℚ`), ticks as integers (`ℤ`), timestamps as integers (`ℤ`).
JavaScript string enums are embedded as inductive types where the code always
holds a legitimate member, and as plain strings where the code performs
unchecked casts (the `closeTrigger`/`closeCause` fields of a closed position
are produced by `actionReason.split('|')` followed by an unchecked cast, so
those fields are kept as strings).  `Date.now()` is passed in explicitly as a
`now` parameter.  Record objects (`positions`, `marketCache`, the price cache)
are embedded as association lists with JavaScript assignment/delete semantics.
-/

namespace PaperBot

/-! ## Tick arithmetic (`src/utils/ticks.ts`) -/

def MIN_TICK : ℤ := 1

def MAX_TICK : ℤ := 999

def TICK_SCALE : ℚ := 1000

/-- `clampTick`: saturate a tick into `[1, 999]`. -/
def clampTick (tick : ℤ) : ℤ :=
  if tick < MIN_TICK then MIN_TICK
  else if tick > MAX_TICK then MAX_TICK
  else tick

/-- `toTick`: convert a decimal price to an integer tick,
`clamp(floor(price * 1000), 1, 999)`.  (The source throws on `NaN`; rationals
have no `NaN`, so the function is total here.) -/
def toTick (price : ℚ) : ℤ :=
  clampTick ⌊price * TICK_SCALE⌋

/-- `fromTick`: convert an integer tick to a decimal price, `clamp(tick)/1000`. -/
def fromTick (tick : ℤ) : ℚ :=
  (clampTick tick : ℚ) / TICK_SCALE

theorem clampTick_of_mem (t : ℤ) (h1 : 1 ≤ t) (h2 : t ≤ 999) : clampTick t = t := by
  unfold clampTick MIN_TICK MAX_TICK
  rw [if_neg (by omega), if_neg (by omega)]

/-- C9: for a tick `t ∈ [1, 999]`, `toTick (fromTick t) = t`, and the grid
price `t/1000` is a fixed point of `fromTick ∘ toTick`. -/
theorem tick_round_trip (t : ℤ) (h1 : 1 ≤ t) (h2 : t ≤ 999) :
    toTick (fromTick t) = t ∧ fromTick (toTick ((t : ℚ) / 1000)) = (t : ℚ) / 1000 := by
  have hgrid : toTick ((t : ℚ) / 1000) = t := by
    unfold toTick TICK_SCALE
    have : (t : ℚ) / 1000 * 1000 = (t : ℚ) := by field_simp
    rw [this, Int.floor_intCast, clampTick_of_mem t h1 h2]
  constructor
  · unfold fromTick TICK_SCALE
    rw [clampTick_of_mem t h1 h2]
    exact hgrid
  · rw [hgrid]
    unfold fromTick TICK_SCALE
    rw [clampTick_of_mem t h1 h2]

/-- Witness for C9 at the concrete tick 480 (price 0.48). -/
theorem tick_round_trip_witness :
    toTick (fromTick 480) = 480 ∧
      fromTick (toTick ((480 : ℤ) / 1000 : ℚ)) = ((480 : ℤ) : ℚ) / 1000 := by
  have h := tick_round_trip 480 (by decide) (by decide)
  exact ⟨h.1, by exact_mod_cast h.2⟩

/-! ## Data model (`src/types.ts`) -/

inductive Side
  | YES
  | NO
deriving DecidableEq, Repr

def sideStr : Side → String
  | Side.YES => "YES"
  | Side.NO => "NO"

inductive PositionState
  | OPEN
  | CLOSING
  | PENDING_RESOLUTION
  | CLOSED
  | SETTLED
  | INVALIDATED
deriving DecidableEq, Repr

inductive CloseTrigger
  | MARKET_RESOLUTION
  | SYSTEM_GUARD
  | USER_ACTION
  | COPY_TRADER_EVENT
  | SYSTEM_POLICY
  | TIMEOUT
deriving DecidableEq, Repr

def triggerStr : CloseTrigger → String
  | CloseTrigger.MARKET_RESOLUTION => "MARKET_RESOLUTION"
  | CloseTrigger.SYSTEM_GUARD => "SYSTEM_GUARD"
  | CloseTrigger.USER_ACTION => "USER_ACTION"
  | CloseTrigger.COPY_TRADER_EVENT => "COPY_TRADER_EVENT"
  | CloseTrigger.SYSTEM_POLICY => "SYSTEM_POLICY"
  | CloseTrigger.TIMEOUT => "TIMEOUT"

inductive CloseCause
  | WINNER_YES
  | WINNER_NO
  | SELL
  | MANUAL_CLOSE
  | MARKET_EXPIRED
  | NO_LIQUIDITY
  | COPY_DESYNC
  | SESSION_ROLLOVER
  | TIMEOUT
  | TARGET_SELLOFF
deriving DecidableEq, Repr

def causeStr : CloseCause → String
  | CloseCause.WINNER_YES => "WINNER_YES"
  | CloseCause.WINNER_NO => "WINNER_NO"
  | CloseCause.SELL => "SELL"
  | CloseCause.MANUAL_CLOSE => "MANUAL_CLOSE"
  | CloseCause.MARKET_EXPIRED => "MARKET_EXPIRED"
  | CloseCause.NO_LIQUIDITY => "NO_LIQUIDITY"
  | CloseCause.COPY_DESYNC => "COPY_DESYNC"
  | CloseCause.SESSION_ROLLOVER => "SESSION_ROLLOVER"
  | CloseCause.TIMEOUT => "TIMEOUT"
  | CloseCause.TARGET_SELLOFF => "TARGET_SELLOFF"

inductive MarketType
  | SINGLE
  | MULTI
deriving DecidableEq, Repr

/-- An open paper position (interface `Position` of `types.ts`). -/
structure Position where
  marketId : String
  marketName : String
  marketSlug : String
  side : Side
  outcomeLabel : String
  tokenId : Option String
  positionId : Option String
  size : ℚ
  entryPrice : ℚ
  entryTick : Option ℤ
  investedUsd : ℚ
  realizedPnL : ℚ
  currentPrice : Option ℚ
  currentTick : Option ℤ
  currentValue : Option ℚ
  unrealizedPnL : Option ℚ
  state : PositionState
  marketType : Option MarketType
  closeTrigger : Option CloseTrigger
  closeCause : Option CloseCause
  closePriority : Option ℕ
  lastEntryTime : Option ℤ
deriving DecidableEq, Repr

/-- A realized close record (interface `ClosedPosition`).  `closeTrigger` and
`closeCause` are strings because `LedgerService.updatePosition` fills them by
splitting `actionReason` on `'|'` with an unchecked cast. -/
structure ClosedPosition where
  marketId : String
  marketName : String
  marketSlug : String
  side : Side
  outcomeLabel : String
  tokenId : Option String
  size : ℚ
  entryPrice : ℚ
  entryTick : Option ℤ
  exitPrice : ℚ
  exitTick : ℤ
  investedUsd : ℚ
  returnUsd : ℚ
  realizedPnL : ℚ
  closeTimestamp : ℤ
  state : PositionState
  closeTrigger : String
  closeCause : String
deriving DecidableEq, Repr

inductive TradeType
  | BUY
  | SELL
deriving DecidableEq, Repr

/-- An append-only audit record (interface `TradeEvent`). -/
structure TradeEvent where
  eventId : String
  timestamp : ℤ
  marketId : String
  marketName : String
  marketSlug : String
  type : TradeType
  side : Side
  outcomeLabel : String
  tokenId : Option String
  quantity : ℚ
  price : ℚ
  usdValue : ℚ
  sourcePrice : Option ℚ
  latencyMs : Option ℤ
deriving DecidableEq, Repr

/-- A normalized market outcome (interface `NormalizedOutcome`). -/
structure NormalizedOutcome where
  tokenId : String
  label : String
  price : ℚ
deriving DecidableEq, Repr

inductive MarketModelType
  | binary
  | multi
deriving DecidableEq, Repr

/-- A normalized market model (interface `NormalizedMarket`). -/
structure NormalizedMarket where
  id : String
  question : String
  slug : String
  type : MarketModelType
  outcomes : List NormalizedOutcome
  isResolved : Bool
  endDate : Option ℤ
deriving DecidableEq, Repr

/-- A `marketCache` entry (interface `MarketMetadata`, as written by
`LedgerService.updateMarketCache`). -/
structure MarketCacheEntry where
  id : String
  question : String
  eventSlug : String
  slug : String
  outcomes : List String
  clobTokenIds : List String
  endTime : Option ℤ
  model : Option NormalizedMarket
deriving DecidableEq, Repr

/-- One price level of an order book. -/
structure OrderBookLevel where
  price : ℚ
  size : ℚ
deriving DecidableEq, Repr

/-- An order book snapshot: bids sorted descending, asks ascending. -/
structure OrderBook where
  bids : List OrderBookLevel
  asks : List OrderBookLevel
deriving DecidableEq, Repr

/-- A best-bid/best-ask quote (interface `MarketPrice`). -/
structure MarketPrice where
  bestBid : ℚ
  bestAsk : ℚ
  midPrice : ℚ
deriving DecidableEq, Repr

/-! ## JavaScript `Record` objects as association lists

`positions`, `marketCache` and the in-memory price cache are JavaScript
objects.  Assignment replaces the value of an existing key in place and
appends a fresh key; `delete` removes the key; lookup returns
`undefined` on a missing key. -/

abbrev AList (α : Type) := List (String × α)

def findKey {α : Type} : AList α → String → Option α
  | [], _ => none
  | kv :: rest, k => if kv.1 = k then some kv.2 else findKey rest k

def setKey {α : Type} : AList α → String → α → AList α
  | [], k, v => [(k, v)]
  | kv :: rest, k, v => if kv.1 = k then (k, v) :: rest else kv :: setKey rest k v

def delKey {α : Type} : AList α → String → AList α
  | [], _ => []
  | kv :: rest, k => if kv.1 = k then delKey rest k else kv :: delKey rest k

theorem findKey_nil {α : Type} (k : String) : findKey ([] : AList α) k = none := rfl

theorem findKey_cons {α : Type} (kv : String × α) (rest : AList α) (k : String) :
    findKey (kv :: rest) k = if kv.1 = k then some kv.2 else findKey rest k := rfl

theorem findKey_setKey_self {α : Type} (ps : AList α) (k : String) (v : α) :
    findKey (setKey ps k v) k = some v := by
  induction ps with
  | nil => simp [findKey, setKey]
  | cons kv rest ih =>
    by_cases h : kv.1 = k
    · simp [setKey, h, findKey_cons]
    · simp only [setKey, h, if_false]
      rw [findKey_cons, if_neg h, ih]

theorem findKey_setKey_ne {α : Type} (ps : AList α) (k k' : String) (v : α)
    (h : k' ≠ k) : findKey (setKey ps k v) k' = findKey ps k' := by
  induction ps with
  | nil =>
    simp only [setKey, findKey_cons, findKey_nil]
    rw [if_neg]
    exact fun hh => h hh.symm
  | cons kv rest ih =>
    by_cases hk : kv.1 = k
    · simp only [setKey, hk, if_true]
      rw [findKey_cons, findKey_cons, hk, if_neg (fun hh : k = k' => h hh.symm),
        if_neg (fun hh : k = k' => h hh.symm)]
    · simp only [setKey, hk, if_false]
      rw [findKey_cons, findKey_cons, ih]

theorem findKey_delKey_self {α : Type} (ps : AList α) (k : String) :
    findKey (delKey ps k) k = none := by
  induction ps with
  | nil => simp [findKey, delKey]
  | cons kv rest ih =>
    by_cases h : kv.1 = k
    · simpa [delKey, h] using ih
    · simp only [delKey, h, if_false]
      rw [findKey_cons, if_neg h, ih]

theorem findKey_delKey_ne {α : Type} (ps : AList α) (k k' : String)
    (h : k' ≠ k) : findKey (delKey ps k) k' = findKey ps k' := by
  induction ps with
  | nil => simp [findKey, delKey]
  | cons kv rest ih =>
    by_cases hk : kv.1 = k
    · simp only [delKey, hk, if_true]
      rw [ih, findKey_cons, hk, if_neg (fun hh : k = k' => h hh.symm)]
    · simp only [delKey, hk, if_false]
      rw [findKey_cons, findKey_cons, ih]

theorem mem_setKey {α : Type} {ps : AList α} {k : String} {v : α} {x : String × α}
    (hx : x ∈ setKey ps k v) : x = (k, v) ∨ x ∈ ps := by
  induction ps with
  | nil => simpa [setKey] using hx
  | cons kv rest ih =>
    by_cases h : kv.1 = k
    · simp only [setKey, h, if_true, List.mem_cons] at hx
      rcases hx with h1 | h2
      · exact Or.inl h1
      · exact Or.inr (List.mem_cons_of_mem _ h2)
    · simp only [setKey, h, if_false, List.mem_cons] at hx
      rcases hx with h1 | h2
      · exact Or.inr (h1 ▸ List.mem_cons_self _ _)
      · rcases ih h2 with h3 | h4
        · exact Or.inl h3
        · exact Or.inr (List.mem_cons_of_mem _ h4)

theorem mem_delKey {α : Type} {ps : AList α} {k : String} {x : String × α}
    (hx : x ∈ delKey ps k) : x ∈ ps := by
  induction ps with
  | nil => simp [delKey] at hx
  | cons kv rest ih =>
    by_cases h : kv.1 = k
    · simp only [delKey, h, if_true] at hx
      exact List.mem_cons_of_mem _ (ih hx)
    · simp only [delKey, h, if_false, List.mem_cons] at hx
      rcases hx with h1 | h2
      · exact h1 ▸ List.mem_cons_self _ _
      · exact List.mem_cons_of_mem _ (ih h2)

theorem findKey_mem {α : Type} {ps : AList α} {k : String} {v : α}
    (h : findKey ps k = some v) : (k, v) ∈ ps := by
  induction ps with
  | nil => simp [findKey] at h
  | cons kv rest ih =>
    rw [findKey_cons] at h
    by_cases hk : kv.1 = k
    · rw [if_pos hk] at h
      injection h with h2
      have : kv = (k, v) := Prod.ext hk h2
      exact this ▸ List.mem_cons_self _ _
    · rw [if_neg hk] at h
      exact List.mem_cons_of_mem _ (ih h)

/-! ## String helpers (JavaScript `String.prototype.includes`) -/

def chPre : List Char → List Char → Bool
  | [], _ => true
  | _ :: _, [] => false
  | a :: as, b :: bs => a == b && chPre as bs

def chScan (pat : List Char) : List Char → Bool
  | [] => chPre pat []
  | b :: bs => chPre pat (b :: bs) || chScan pat bs

/-- `s.includes(pat)` on JavaScript strings. -/
def strIncl (s pat : String) : Bool := chScan pat.toList s.toList

def chSplit (sep : Char) : List Char → List (List Char)
  | [] => [[]]
  | c :: rest =>
    let r := chSplit sep rest
    if c = sep then [] :: r
    else
      match r with
      | h :: tl => (c :: h) :: tl
      | [] => [[c]]

/-- `s.split(sep)` on JavaScript strings, for a one-character separator. -/
def strSplit (s : String) (sep : Char) : List String :=
  (chSplit sep s.toList).map (fun l => String.mk l)

/-! ## Ledger state (`LedgerService`) -/

/-- The persistent ledger root (interface `LedgerSchema`). -/
structure Ledger where
  balance : ℚ
  positions : AList Position
  closedPositions : List ClosedPosition
  tradeEvents : List TradeEvent
  marketCache : AList MarketCacheEntry
  processedTxHashes : List String
deriving DecidableEq, Repr

/-- An entry of the in-memory price cache `tokenId|marketId → {price, timestamp}`. -/
structure PriceEntry where
  price : ℚ
  timestamp : ℤ
deriving DecidableEq, Repr

abbrev PriceCache := AList PriceEntry

/-- The fresh ledger created when no ledger file exists. -/
def freshLedger : Ledger :=
  { balance := 1000, positions := [], closedPositions := [], tradeEvents := [],
    marketCache := [], processedTxHashes := [] }

/-- The argument record of `LedgerService.updatePosition`. -/
structure UpdateArgs where
  marketId : String
  marketName : String
  marketSlug : String
  side : Side
  outcomeLabel : String
  sizeShares : ℚ
  price : ℚ
  txHash : String
  actionReason : String
  sourcePrice : Option ℚ
  latencyMs : Option ℤ
  tokenId : Option String
  marketType : Option MarketType
deriving DecidableEq, Repr

/-- `Math.abs` on embedded numbers (definitionally reducing form of `|x|`). -/
def absQ (x : ℚ) : ℚ := if x < 0 then -x else x

theorem absQ_eq_abs (x : ℚ) : absQ x = |x| := by
  unfold absQ
  by_cases h : x < 0
  · rw [if_pos h, abs_of_neg h]
  · rw [if_neg h, abs_of_nonneg (le_of_not_lt h)]

/-- `Math.max` on embedded numbers. -/
def maxQ (x y : ℚ) : ℚ := if x < y then y else x

/-- `Math.min` on embedded numbers. -/
def minQ (x y : ℚ) : ℚ := if y < x then y else x

/-- The `"TRIGGER|CAUSE"` parse of `actionReason` performed when a sell fully
closes a position (defaults `SYSTEM_POLICY`/`MANUAL_CLOSE`; the bare legacy
reason `"RESOLUTION"` maps to `MARKET_RESOLUTION`/`WINNER_YES`). -/
def parseReason (reason : String) : String × String :=
  if strIncl reason "|" then
    ((strSplit reason '|').getD 0 "", (strSplit reason '|').getD 1 "")
  else if reason = "RESOLUTION" then ("MARKET_RESOLUTION", "WINNER_YES")
  else ("SYSTEM_POLICY", "MANUAL_CLOSE")

/-- A sell is a system settlement (no SELL trade event) when the reason string
contains `RESOLUTION`. -/
def isSettlementReason (reason : String) : Bool :=
  strIncl reason "RESOLUTION" || strIncl reason "MARKET_RESOLUTION"

/-- The canonical position key `marketId-tokenId`, falling back to
`marketId-side-outcomeLabel` when no token id is given. -/
def canonicalKeyOf (a : UpdateArgs) : String :=
  match a.tokenId with
  | some t => a.marketId ++ "-" ++ t
  | none => a.marketId ++ "-" ++ sideStr a.side ++ "-" ++ a.outcomeLabel

/-- The legacy position key `marketId-side`. -/
def legacyKeyOf (marketId : String) (side : Side) : String :=
  marketId ++ "-" ++ sideStr side

/-- The `markAsProcessed` closure of `updatePosition`: push a non-empty
transaction hash onto `processedTxHashes`. -/
def markProcessed (txHash : String) (st : Ledger) : Ledger :=
  if txHash ≠ "" then { st with processedTxHashes := st.processedTxHashes ++ [txHash] }
  else st

/-- The legacy-key fallback and migration block of `updatePosition`: when the
canonical key is absent but `marketId-side` holds a position, that position is
re-keyed to the canonical key (setting `positionId` and `tokenId`). -/
def migrateLegacyKey (s : Ledger) (a : UpdateArgs) : AList Position :=
  match findKey s.positions (canonicalKeyOf a) with
  | some _ => s.positions
  | none =>
    match findKey s.positions (legacyKeyOf a.marketId a.side) with
    | some lp =>
      delKey (setKey s.positions (canonicalKeyOf a)
        { lp with positionId := some (canonicalKeyOf a),
                  tokenId := a.tokenId.orElse (fun _ => lp.tokenId) })
        (legacyKeyOf a.marketId a.side)
    | none => s.positions

/-- `LedgerService.updatePosition`.  Returns the JS boolean result together
with the successor ledger state; `Date.now()` is the explicit `now`
parameter, and `save()` is the identity on the embedded state. -/
def updatePosition (now : ℤ) (s : Ledger) (a : UpdateArgs) : Bool × Ledger :=
  if a.txHash ≠ "" ∧ a.txHash ∈ s.processedTxHashes then (false, s)
  else
    let finalName := if a.marketName ≠ "" then a.marketName else "Market " ++ a.marketId
    let tickPrice := toTick a.price
    let costUsd := absQ (a.sizeShares * a.price)
    let isBuy := a.sizeShares > 0
    let posKey := canonicalKeyOf a
    let positions1 := migrateLegacyKey s a
    let existing := findKey positions1 posKey
    let s1 : Ledger := { s with positions := positions1 }
    let markAsProcessed := markProcessed a.txHash
    let eventTokenId :=
      match a.tokenId with
      | some t => some t
      | none => match existing with
        | some ex => ex.tokenId
        | none => none
    if ¬isBuy ∧ existing = none ∧ a.actionReason ≠ "RESOLUTION" then
      (false, markAsProcessed s1)
    else if isBuy ∧ s1.balance < costUsd then
      (false, markAsProcessed s1)
    else if isBuy then
      let s2 : Ledger := { s1 with balance := s1.balance - costUsd }
      let s3 : Ledger :=
        match existing with
        | some ex =>
          let oldCost := ex.size * ex.entryPrice
          let newCost := a.sizeShares * a.price
          let newEntryPrice := (oldCost + newCost) / (ex.size + a.sizeShares)
          let ex' := { ex with
            entryPrice := newEntryPrice,
            entryTick := some (toTick newEntryPrice),
            size := ex.size + a.sizeShares,
            investedUsd := oldCost + newCost,
            marketName := finalName,
            marketSlug := a.marketSlug,
            outcomeLabel := a.outcomeLabel,
            tokenId := a.tokenId.orElse (fun _ => ex.tokenId),
            positionId := ex.positionId.orElse (fun _ => some posKey),
            state := PositionState.OPEN }
          { s2 with positions := setKey s2.positions posKey ex' }
        | none =>
          let newPos : Position := {
            marketId := a.marketId, marketName := finalName, marketSlug := a.marketSlug,
            side := a.side, outcomeLabel := a.outcomeLabel, tokenId := a.tokenId,
            positionId := some posKey, size := a.sizeShares, entryPrice := a.price,
            entryTick := some tickPrice, investedUsd := costUsd, realizedPnL := 0,
            currentPrice := none, currentTick := none, currentValue := none,
            unrealizedPnL := none, state := PositionState.OPEN,
            marketType := a.marketType, closeTrigger := none, closeCause := none,
            closePriority := none, lastEntryTime := none }
          { s2 with positions := setKey s2.positions posKey newPos }
      let buyEvent : TradeEvent := {
        eventId := a.txHash, timestamp := now, marketId := a.marketId,
        marketName := finalName, marketSlug := a.marketSlug, type := TradeType.BUY,
        side := a.side, outcomeLabel := a.outcomeLabel, tokenId := eventTokenId,
        quantity := absQ a.sizeShares, price := a.price, usdValue := costUsd,
        sourcePrice := a.sourcePrice, latencyMs := a.latencyMs }
      (true, markAsProcessed { s3 with tradeEvents := buyEvent :: s3.tradeEvents })
    else
      let s2 : Ledger := { s1 with balance := s1.balance + costUsd }
      match existing with
      | none => (false, s2)
      | some ex =>
        if ex.state ≠ PositionState.OPEN ∧ ex.state ≠ PositionState.CLOSING then
          (false, s2)
        else
          let sellShares := absQ a.sizeShares
          let costBasisOfSold := ex.entryPrice * sellShares
          let proceeds := sellShares * a.price
          let pnl := proceeds - costBasisOfSold
          let ex' := { ex with
            size := ex.size - sellShares,
            investedUsd := ex.investedUsd - costBasisOfSold,
            realizedPnL := ex.realizedPnL + pnl }
          let s3 : Ledger := { s2 with positions := setKey s2.positions posKey ex' }
          let isSettlement := isSettlementReason a.actionReason
          let sellEvent : TradeEvent := {
            eventId := a.txHash, timestamp := now, marketId := a.marketId,
            marketName := finalName, marketSlug := a.marketSlug, type := TradeType.SELL,
            side := a.side, outcomeLabel := a.outcomeLabel, tokenId := eventTokenId,
            quantity := absQ a.sizeShares, price := a.price, usdValue := costUsd,
            sourcePrice := a.sourcePrice, latencyMs := a.latencyMs }
          let s4 : Ledger :=
            if isSettlement then s3 else { s3 with tradeEvents := sellEvent :: s3.tradeEvents }
          let s5 : Ledger :=
            if ex'.size < 1/10 then
              let parsed := parseReason a.actionReason
              let closed : ClosedPosition := {
                marketId := a.marketId, marketName := finalName, marketSlug := a.marketSlug,
                side := a.side,
                outcomeLabel := if ex.outcomeLabel ≠ "" then ex.outcomeLabel else a.outcomeLabel,
                tokenId := ex.tokenId.orElse (fun _ => a.tokenId),
                size := sellShares, entryPrice := ex.entryPrice, entryTick := ex.entryTick,
                exitPrice := a.price, exitTick := tickPrice,
                investedUsd := costBasisOfSold, returnUsd := proceeds,
                realizedPnL := ex'.realizedPnL, closeTimestamp := now,
                state := PositionState.CLOSED,
                closeTrigger := parsed.1, closeCause := parsed.2 }
              { s4 with closedPositions := closed :: s4.closedPositions,
                        positions := delKey s4.positions posKey }
            else s4
          (true, markAsProcessed s5)

/-- `LedgerService.updatePositionState`. -/
def updatePositionState (s : Ledger) (posKey : String) (newState : PositionState) : Ledger :=
  match findKey s.positions posKey with
  | some p => { s with positions := setKey s.positions posKey { p with state := newState } }
  | none => s

/-- `LedgerService.updateMarketCache` (endTime in seconds, i.e. below 10^10,
is normalized to milliseconds). -/
def updateMarketCache (s : Ledger) (id question eventSlug : String)
    (outcomes clobTokenIds : List String) (endTime : Option ℤ)
    (model : Option NormalizedMarket) : Ledger :=
  let finalEndTime : Option ℤ :=
    match endTime with
    | some e => if e ≠ 0 ∧ e < 10000000000 then some (e * 1000) else some e
    | none => none
  let entry : MarketCacheEntry :=
    { id := id, question := question, eventSlug := eventSlug, slug := eventSlug,
      outcomes := outcomes, clobTokenIds := clobTokenIds, endTime := finalEndTime,
      model := model }
  { s with marketCache := setKey s.marketCache id entry }

/-! ## Concrete ledger fixtures -/

/-- A 10-share YES position on market `M`, token `t1`, entered at 0.50. -/
def posOpenHalf : Position :=
  { marketId := "M", marketName := "Q", marketSlug := "q", side := Side.YES,
    outcomeLabel := "Yes", tokenId := some "t1", positionId := some "M-t1",
    size := 10, entryPrice := 1/2, entryTick := some 500, investedUsd := 5,
    realizedPnL := 0, currentPrice := none, currentTick := none,
    currentValue := none, unrealizedPnL := none, state := PositionState.OPEN,
    marketType := some MarketType.SINGLE, closeTrigger := none,
    closeCause := none, closePriority := none, lastEntryTime := none }

/-- A ledger holding `posOpenHalf` in state `PENDING_RESOLUTION` and $100 cash. -/
def ledgerPendingPos : Ledger :=
  { balance := 100,
    positions := [("M-t1", { posOpenHalf with state := PositionState.PENDING_RESOLUTION })],
    closedPositions := [], tradeEvents := [], marketCache := [],
    processedTxHashes := [] }

/-- A sell of 10 shares at 0.50 against market `M`, token `t1`. -/
def sellTenArgs : UpdateArgs :=
  { marketId := "M", marketName := "Q", marketSlug := "q", side := Side.YES,
    outcomeLabel := "Yes", sizeShares := -10, price := 1/2, txHash := "h",
    actionReason := "USER_ACTION|MANUAL_CLOSE", sourcePrice := some (1/2),
    latencyMs := some 0, tokenId := some "t1", marketType := some MarketType.SINGLE }

/-- C2 (code bug): a sell against a position whose state is neither `OPEN` nor
`CLOSING` is refused (`false`), yet the balance has already been credited with
the full sell proceeds: selling 10 shares at 0.50 against a
`PENDING_RESOLUTION` position returns `false` with the balance raised from 100
to 105, and the transaction hash is not even marked processed.  The
specification requires a refused mutation to leave the balance unchanged. -/
theorem updatePosition_state_mismatch_credits_balance :
    (updatePosition 0 ledgerPendingPos sellTenArgs).1 = false ∧
      (updatePosition 0 ledgerPendingPos sellTenArgs).2.balance =
        ledgerPendingPos.balance + 5 ∧
      ledgerPendingPos.balance = 100 ∧
      (updatePosition 0 ledgerPendingPos sellTenArgs).2.processedTxHashes = [] := by
  have e1 : ("M" ++ "-" ++ "t1" : String) = "M-t1" := by simp
  refine ⟨?_, ?_, ?_, ?_⟩ <;>
  · norm_num [updatePosition, ledgerPendingPos, sellTenArgs, posOpenHalf,
      canonicalKeyOf, legacyKeyOf, findKey, absQ, e1, markProcessed, migrateLegacyKey]
    try simp [markProcessed]
    try norm_num [absQ]

/-- A buy of 0.05 shares at 0.50 (market `M`, token `t1`). -/
def tinyBuyArgs : UpdateArgs :=
  { marketId := "M", marketName := "Q", marketSlug := "q", side := Side.YES,
    outcomeLabel := "Yes", sizeShares := 1/20, price := 1/2, txHash := "h9",
    actionReason := "COPY_TRADE", sourcePrice := some (1/2), latencyMs := some 0,
    tokenId := some "t1", marketType := some MarketType.SINGLE }

/-- C5 (counterexample): a single `updatePosition` buy of 0.05 shares from the
fresh ledger leaves an open position of size 0.05 < 0.1 in the open set, so
the open-set size invariant fails as stated for arbitrary call sequences. -/
theorem open_position_below_min_size_exists :
    ((updatePosition 0 freshLedger tinyBuyArgs).2.positions.map
        (fun kv => kv.2.size)) = [1/20] ∧ (1/20 : ℚ) < 1/10 := by
  have e1 : ("M" ++ "-" ++ "t1" : String) = "M-t1" := by simp
  constructor
  · norm_num [updatePosition, freshLedger, tinyBuyArgs, canonicalKeyOf,
      legacyKeyOf, findKey, setKey, absQ, e1, markProcessed, migrateLegacyKey]
    try simp [markProcessed]
    try norm_num [absQ]
  · norm_num

/-- C6: a call of `updatePosition` whose (non-empty) transaction hash is
already in `processedTxHashes` returns `false` and leaves the ledger state
bit-for-bit unchanged — in particular a second application of the same
`(txHash, …)` leaves the state identical to the state after the first. -/
theorem updatePosition_idempotent_txHash (now : ℤ) (s : Ledger) (a : UpdateArgs)
    (h1 : a.txHash ≠ "") (h2 : a.txHash ∈ s.processedTxHashes) :
    updatePosition now s a = (false, s) := by
  unfold updatePosition
  rw [if_pos ⟨h1, h2⟩]

/-- Witness for C6: replaying hash `h` against a ledger that has processed `h`
returns `false` and the very same state. -/
theorem updatePosition_idempotent_txHash_witness :
    updatePosition 0 { ledgerPendingPos with processedTxHashes := ["h"] } sellTenArgs =
      (false, { ledgerPendingPos with processedTxHashes := ["h"] }) :=
  updatePosition_idempotent_txHash 0
    { ledgerPendingPos with processedTxHashes := ["h"] } sellTenArgs
    (by decide) (by decide)

theorem mem_delKey_ne {α : Type} {ps : AList α} {k : String} {x : String × α}
    (hx : x ∈ delKey ps k) : x.1 ≠ k ∧ x ∈ ps := by
  induction ps with
  | nil => simp [delKey] at hx
  | cons kv rest ih =>
    by_cases h : kv.1 = k
    · simp only [delKey, h, if_true] at hx
      exact ⟨(ih hx).1, List.mem_cons_of_mem _ (ih hx).2⟩
    · simp only [delKey, h, if_false, List.mem_cons] at hx
      rcases hx with h1 | h2
      · exact ⟨h1 ▸ h, h1 ▸ List.mem_cons_self _ _⟩
      · exact ⟨(ih h2).1, List.mem_cons_of_mem _ (ih h2).2⟩

theorem markProcessed_positions (h : String) (st : Ledger) :
    (markProcessed h st).positions = st.positions := by
  unfold markProcessed
  split <;> rfl

theorem markProcessed_balance (h : String) (st : Ledger) :
    (markProcessed h st).balance = st.balance := by
  unfold markProcessed
  split <;> rfl

theorem mem_migrateLegacyKey_size {s : Ledger} {a : UpdateArgs} {kv : String × Position}
    (hkv : kv ∈ migrateLegacyKey s a) :
    ∃ kv' ∈ s.positions, kv.2.size = kv'.2.size := by
  unfold migrateLegacyKey at hkv
  split at hkv
  · exact ⟨kv, hkv, rfl⟩
  · split at hkv
    · rename_i lp hlp
      rcases mem_setKey (mem_delKey_ne hkv).2 with h1 | h2
      · exact ⟨(legacyKeyOf a.marketId a.side, lp), findKey_mem hlp, by rw [h1]⟩
      · exact ⟨kv, h2, rfl⟩
    · exact ⟨kv, hkv, rfl⟩

/-- One `updatePosition` call preserves the per-position lower size bound `b`
(any `b ≤ 0.1`), provided every buy adds at least `b` shares. -/
theorem updatePosition_step_size_inv (now : ℤ) (s : Ledger) (a : UpdateArgs) (b : ℚ)
    (hb : b ≤ 1/10)
    (hbuy : 0 < a.sizeShares → b ≤ a.sizeShares)
    (hinv : ∀ kv ∈ s.positions, b ≤ kv.2.size) :
    ∀ kv ∈ (updatePosition now s a).2.positions, b ≤ kv.2.size := by
  have hinv1 : ∀ kv ∈ migrateLegacyKey s a, b ≤ kv.2.size := by
    intro kv hkv
    rcases mem_migrateLegacyKey_size hkv with ⟨kv', hkv', hsz⟩
    rw [hsz]
    exact hinv kv' hkv'
  intro kv hkv
  simp only [updatePosition] at hkv
  split at hkv
  · exact hinv kv hkv
  · split at hkv
    · rw [markProcessed_positions] at hkv
      exact hinv1 kv hkv
    · split at hkv
      · rw [markProcessed_positions] at hkv
        exact hinv1 kv hkv
      · split at hkv
        · -- buy branch
          rename_i hpos
          rw [markProcessed_positions] at hkv
          simp only at hkv
          split at hkv
          · -- existing position: size grows
            rename_i ex hex
            rcases mem_setKey hkv with h1 | h2
            · have hexmem := findKey_mem hex
              have hexsz := hinv1 _ hexmem
              rw [h1]
              simp only
              have : 0 < a.sizeShares := hpos
              linarith
            · exact hinv1 kv h2
          · -- fresh position: size = sizeShares ≥ b
            rename_i hex
            rcases mem_setKey hkv with h1 | h2
            · rw [h1]
              simp only
              exact hbuy hpos
            · exact hinv1 kv h2
        · -- sell branch
          rename_i hpos
          split at hkv
          · exact hinv1 kv hkv
          · rename_i ex hex
            split at hkv
            · exact hinv1 kv hkv
            · rename_i hstate
              rw [markProcessed_positions] at hkv
              split at hkv
              · -- fully closed: position deleted from the open set
                rcases mem_delKey_ne hkv with ⟨hkne, hkv2⟩
                split at hkv2 <;> try simp only at hkv2
                all_goals
                  (rcases mem_setKey hkv2 with h1 | h2
                   · exact absurd (congrArg Prod.fst h1) (by simpa using hkne)
                   · exact hinv1 kv h2)
              · -- residual position keeps size at least 0.1
                rename_i hbig
                push_neg at hbig
                split at hkv <;> try simp only at hkv
                all_goals
                  (rcases mem_setKey hkv with h1 | h2
                   · rw [h1]
                     simp only
                     linarith
                   · exact hinv1 kv h2)

/-- Sequential application of `updatePosition` calls `(now, args)`. -/
def applyUpdates (s : Ledger) : List (ℤ × UpdateArgs) → Ledger
  | [] => s
  | c :: rest => applyUpdates (updatePosition c.1 s c.2).2 rest

/-- C5 (amended): for any lower bound `b ≤ 0.1`, after any sequence of
`updatePosition` calls in which every buy is of at least `b` shares, starting
from a ledger whose open positions all have size at least `b`, every position
remaining in the open map has size at least `b`.  With `b = 0.1` this is the
open-set minimum-size invariant under the engine's sizing floor; with `b = 0`
it shows no open position ever has negative size.  (Unconditionally the
invariant is false: see the counterexample, a buy of 0.05 shares.) -/
theorem open_position_min_size_inv (b : ℚ) (hb : b ≤ 1/10) (s : Ledger)
    (calls : List (ℤ × UpdateArgs))
    (hbuys : ∀ c ∈ calls, 0 < (c.2).sizeShares → b ≤ (c.2).sizeShares)
    (hinv : ∀ kv ∈ s.positions, b ≤ kv.2.size) :
    ∀ kv ∈ (applyUpdates s calls).positions, b ≤ kv.2.size := by
  induction calls generalizing s with
  | nil => exact hinv
  | cons c rest ih =>
    simp only [applyUpdates]
    exact ih _
      (fun c' hc' => hbuys c' (List.mem_cons_of_mem _ hc'))
      (updatePosition_step_size_inv c.1 s c.2 b hb
        (hbuys c (List.mem_cons_self _ _)) hinv)

/-- A buy of 10 shares at 0.44 (market `M`, token `t1`). -/
def buyTenArgs : UpdateArgs :=
  { marketId := "M", marketName := "Q", marketSlug := "q", side := Side.YES,
    outcomeLabel := "Yes", sizeShares := 10, price := 11/25, txHash := "h1",
    actionReason := "COPY_TRADE", sourcePrice := some (11/25), latencyMs := some 0,
    tokenId := some "t1", marketType := some MarketType.SINGLE }

/-- Witness for C5 (amended) at `b = 0.1`, one buy of 10 shares from the fresh
ledger. -/
theorem open_position_min_size_inv_witness :
    ((applyUpdates freshLedger [(0, buyTenArgs)]).positions.all
      (fun kv => decide ((1/10 : ℚ) ≤ kv.2.size))) = true := by
  have h := open_position_min_size_inv (1/10) le_rfl freshLedger [(0, buyTenArgs)]
    (by
      intro c hc
      simp only [List.mem_singleton] at hc
      subst hc
      intro _
      norm_num [buyTenArgs])
    (by simp [freshLedger])
  exact List.all_eq_true.mpr (fun kv hkv => decide_eq_true (h kv hkv))

/-! ## Symbolic characterization of the sell path of `updatePosition` -/

/-- The in-place mutation of the existing position on the sell path. -/
def sellUpdatedPos (a : UpdateArgs) (ex : Position) : Position :=
  { ex with size := ex.size - absQ a.sizeShares,
            investedUsd := ex.investedUsd - ex.entryPrice * absQ a.sizeShares,
            realizedPnL := ex.realizedPnL +
              (absQ a.sizeShares * a.price - ex.entryPrice * absQ a.sizeShares) }

/-- The SELL trade event emitted for user-initiated sells. -/
def sellTradeEvent (now : ℤ) (a : UpdateArgs) (ex : Position) : TradeEvent :=
  { eventId := a.txHash, timestamp := now, marketId := a.marketId,
    marketName := if a.marketName ≠ "" then a.marketName else "Market " ++ a.marketId,
    marketSlug := a.marketSlug, type := TradeType.SELL, side := a.side,
    outcomeLabel := a.outcomeLabel,
    tokenId := match a.tokenId with
      | some t => some t
      | none => ex.tokenId,
    quantity := absQ a.sizeShares, price := a.price,
    usdValue := absQ (a.sizeShares * a.price),
    sourcePrice := a.sourcePrice, latencyMs := a.latencyMs }

/-- The closed-position record written when a sell empties a position. -/
def closedRecOf (now : ℤ) (a : UpdateArgs) (ex : Position) : ClosedPosition :=
  { marketId := a.marketId,
    marketName := if a.marketName ≠ "" then a.marketName else "Market " ++ a.marketId,
    marketSlug := a.marketSlug, side := a.side,
    outcomeLabel := if ex.outcomeLabel ≠ "" then ex.outcomeLabel else a.outcomeLabel,
    tokenId := ex.tokenId.orElse (fun _ => a.tokenId),
    size := absQ a.sizeShares, entryPrice := ex.entryPrice, entryTick := ex.entryTick,
    exitPrice := a.price, exitTick := toTick a.price,
    investedUsd := ex.entryPrice * absQ a.sizeShares,
    returnUsd := absQ a.sizeShares * a.price,
    realizedPnL := ex.realizedPnL +
      (absQ a.sizeShares * a.price - ex.entryPrice * absQ a.sizeShares),
    closeTimestamp := now, state := PositionState.CLOSED,
    closeTrigger := (parseReason a.actionReason).1,
    closeCause := (parseReason a.actionReason).2 }

/-- Sell path, full close: a sell with canonical token key against an existing
`OPEN`/`CLOSING` position whose resulting size drops below 0.1 is accepted,
credits the proceeds, moves the position to `closedPositions` and removes it
from the open set. -/
theorem updatePosition_sell_close (now : ℤ) (s : Ledger) (a : UpdateArgs)
    (pos : Position) (t : String)
    (htok : a.tokenId = some t)
    (hfind : findKey s.positions (a.marketId ++ "-" ++ t) = some pos)
    (hstate : pos.state = PositionState.OPEN ∨ pos.state = PositionState.CLOSING)
    (hsell : a.sizeShares < 0)
    (hfresh : a.txHash ∉ s.processedTxHashes)
    (hclose : pos.size - absQ a.sizeShares < 1/10) :
    updatePosition now s a =
      (true, markProcessed a.txHash
        { balance := s.balance + absQ (a.sizeShares * a.price),
          positions := delKey (setKey s.positions (a.marketId ++ "-" ++ t)
            (sellUpdatedPos a pos)) (a.marketId ++ "-" ++ t),
          closedPositions := closedRecOf now a pos :: s.closedPositions,
          tradeEvents := if isSettlementReason a.actionReason = true then s.tradeEvents
            else sellTradeEvent now a pos :: s.tradeEvents,
          marketCache := s.marketCache,
          processedTxHashes := s.processedTxHashes }) := by
  have hck : canonicalKeyOf a = a.marketId ++ "-" ++ t := by
    simp [canonicalKeyOf, htok]
  have hmig : migrateLegacyKey s a = s.positions := by
    unfold migrateLegacyKey
    rw [hck, hfind]
  have htx : ¬(a.txHash ≠ "" ∧ a.txHash ∈ s.processedTxHashes) := fun h => hfresh h.2
  have hnb : ¬(a.sizeShares > 0) := not_lt.mpr (le_of_lt hsell)
  have hst : ¬(pos.state ≠ PositionState.OPEN ∧ pos.state ≠ PositionState.CLOSING) := by
    rcases hstate with h | h <;> simp [h]
  unfold updatePosition
  rw [if_neg htx]
  simp only [hck, hmig, hfind, hnb, htok, hst, hclose, if_true, if_false,
    false_and, and_false, if_neg, not_false_iff, reduceCtorEq,
    sellUpdatedPos, sellTradeEvent, closedRecOf, markProcessed,
    isSettlementReason, parseReason]
  by_cases h1 : a.txHash ≠ "" <;>
    by_cases h2 : (strIncl a.actionReason "RESOLUTION" ||
        strIncl a.actionReason "MARKET_RESOLUTION") = true <;>
      simp [h1, h2]

theorem markProcessed_closedPositions (h : String) (st : Ledger) :
    (markProcessed h st).closedPositions = st.closedPositions := by
  unfold markProcessed
  split <;> rfl

theorem markProcessed_tradeEvents (h : String) (st : Ledger) :
    (markProcessed h st).tradeEvents = st.tradeEvents := by
  unfold markProcessed
  split <;> rfl

theorem markProcessed_marketCache (h : String) (st : Ledger) :
    (markProcessed h st).marketCache = st.marketCache := by
  unfold markProcessed
  split <;> rfl

theorem absQ_nonpos {x : ℚ} (h : x ≤ 0) : absQ x = -x := by
  unfold absQ
  rcases lt_or_eq_of_le h with h1 | h1
  · rw [if_pos h1]
  · rw [h1]
    norm_num

theorem absQ_neg_self (q : ℚ) (hq : 0 ≤ q) : absQ (-q) = q := by
  rw [absQ_nonpos (by linarith), neg_neg]

/-- C10: the ledger itself never clamps a sell to the held size.  For an
`OPEN` position of size `s` addressed by its canonical token key, a sell of
`q > s` shares is accepted: the call returns `true`, the balance is credited
the full `q * price`, the position's (transient) updated size is negative,
a closed record of size `q` is appended, and the position is removed from the
open set.  Over-selling is prevented only by the engine-side clamp. -/
theorem updatePosition_accepts_oversell (now : ℤ) (s : Ledger) (a : UpdateArgs)
    (pos : Position) (t : String) (q : ℚ)
    (htok : a.tokenId = some t)
    (hfind : findKey s.positions (a.marketId ++ "-" ++ t) = some pos)
    (hstate : pos.state = PositionState.OPEN)
    (hshares : a.sizeShares = -q)
    (hq : pos.size < q)
    (hsz : 0 ≤ pos.size)
    (hpr : 0 ≤ a.price)
    (hfresh : a.txHash ∉ s.processedTxHashes) :
    (updatePosition now s a).1 = true ∧
      (updatePosition now s a).2.balance = s.balance + q * a.price ∧
      (sellUpdatedPos a pos).size < 0 ∧
      findKey (updatePosition now s a).2.positions (a.marketId ++ "-" ++ t) = none ∧
      (updatePosition now s a).2.closedPositions =
        closedRecOf now a pos :: s.closedPositions ∧
      (closedRecOf now a pos).size = q := by
  have hqpos : 0 < q := lt_of_le_of_lt hsz hq
  have habs : absQ a.sizeShares = q := by
    rw [hshares, absQ_neg_self q (le_of_lt hqpos)]
  have habsm : absQ (a.sizeShares * a.price) = q * a.price := by
    have : 0 ≤ q * a.price := mul_nonneg (le_of_lt hqpos) hpr
    rw [hshares, neg_mul, absQ_nonpos (by linarith), neg_neg]
  have hres := updatePosition_sell_close now s a pos t htok hfind (Or.inl hstate)
    (by rw [hshares]; linarith) hfresh (by rw [habs]; linarith)
  refine ⟨by rw [hres], ?_, ?_, ?_, ?_, ?_⟩
  · rw [hres]
    simp only [markProcessed_balance, habsm]
  · simp only [sellUpdatedPos, habs]
    linarith
  · rw [hres]
    simp only [markProcessed_positions]
    exact findKey_delKey_self _ _
  · rw [hres]
    simp only [markProcessed_closedPositions]
  · simp only [closedRecOf, habs]

/-- A ledger holding the open 10-share position `posOpenHalf` and $100 cash. -/
def ledgerOpenPos : Ledger :=
  { balance := 100, positions := [("M-t1", posOpenHalf)], closedPositions := [],
    tradeEvents := [], marketCache := [], processedTxHashes := [] }

/-- A sell of 40 shares at 0.50 against the 10-share position. -/
def oversellArgs : UpdateArgs :=
  { marketId := "M", marketName := "Q", marketSlug := "q", side := Side.YES,
    outcomeLabel := "Yes", sizeShares := -40, price := 1/2, txHash := "h10",
    actionReason := "COPY_TRADER_EVENT|TARGET_SELLOFF", sourcePrice := some (1/2),
    latencyMs := some 0, tokenId := some "t1", marketType := some MarketType.SINGLE }

/-- Witness for C10: selling 40 shares against the open 10-share position. -/
theorem updatePosition_accepts_oversell_witness :
    (updatePosition 0 ledgerOpenPos oversellArgs).1 = true ∧
      (updatePosition 0 ledgerOpenPos oversellArgs).2.balance =
        ledgerOpenPos.balance + 40 * (1/2) ∧
      (sellUpdatedPos oversellArgs posOpenHalf).size < 0 ∧
      findKey (updatePosition 0 ledgerOpenPos oversellArgs).2.positions
        ("M" ++ "-" ++ "t1") = none ∧
      (updatePosition 0 ledgerOpenPos oversellArgs).2.closedPositions =
        closedRecOf 0 oversellArgs posOpenHalf :: ledgerOpenPos.closedPositions ∧
      (closedRecOf 0 oversellArgs posOpenHalf).size = 40 :=
  updatePosition_accepts_oversell 0 ledgerOpenPos oversellArgs posOpenHalf "t1" 40
    rfl (by simp [ledgerOpenPos, findKey, oversellArgs]) rfl (by norm_num [oversellArgs])
    (by norm_num [posOpenHalf]) (by norm_num [posOpenHalf])
    (by norm_num [oversellArgs]) (by simp [ledgerOpenPos])

/-! ## `LedgerService.updateRealTimePrice` -/

/-- The common tail of the price-update loop: write `currentPrice`, derive
`currentTick` (`toTick` cannot throw on rationals), and recompute
`currentValue` and `unrealizedPnL`. -/
def rtUpdatedPos (p : ℚ) (pos : Position) : Position :=
  { pos with currentPrice := some p, currentTick := some (toTick p),
             currentValue := some (p * pos.size),
             unrealizedPnL := some (p * pos.size - pos.investedUsd) }

/-- The per-position step of `updateRealTimePrice`: a position of the market
is updated with the direct price on an exact `tokenId` match, with the legacy
side-derived price when no `tokenId` is given, and skipped otherwise. -/
def rtStep (marketId : String) (price : ℚ) (tokenId : Option String)
    (pos : Position) : Position :=
  if pos.marketId = marketId then
    match tokenId with
    | some t => if pos.tokenId = some t then rtUpdatedPos price pos else pos
    | none => rtUpdatedPos (if pos.side = Side.YES then price else 1 - price) pos
  else pos

/-- `LedgerService.updateRealTimePrice`: writes
`priceCache[tokenId || marketId]`, then updates the derived fields of
matching open positions.  Persistence is the identity. -/
def updateRealTimePrice (now : ℤ) (cache : PriceCache) (s : Ledger)
    (marketId : String) (price : ℚ) (tokenId : Option String) :
    PriceCache × Ledger :=
  let cacheKey := tokenId.getD marketId
  let cache' := setKey cache cacheKey { price := price, timestamp := now }
  let positions' := s.positions.map (fun kv => (kv.1, rtStep marketId price tokenId kv.2))
  (cache', { s with positions := positions' })

/-- The condition under which `updateRealTimePrice` touches a position. -/
def rtTargets (marketId : String) (tokenId : Option String) (pos : Position) : Prop :=
  pos.marketId = marketId ∧
    match tokenId with
    | some t => pos.tokenId = some t
    | none => True

/-- The price written into a targeted position: direct for a token match,
side-derived (`price` for YES, `1 - price` for NO) in the legacy case. -/
def rtPrice (price : ℚ) (tokenId : Option String) (pos : Position) : ℚ :=
  match tokenId with
  | some _ => price
  | none => if pos.side = Side.YES then price else 1 - price

theorem findKey_map_step {α : Type} (g : α → α) (ps : AList α) (k : String) :
    findKey (ps.map (fun kv => (kv.1, g kv.2))) k = (findKey ps k).map g := by
  induction ps with
  | nil => simp [findKey]
  | cons kv rest ih =>
    by_cases h : kv.1 = k
    · simp [findKey_cons, h]
    · simp only [List.map_cons, findKey_cons, h, if_false]
      exact ih

/-- C8: `updateRealTimePrice` mutates only the price cache and the derived
price fields of positions of the given market — balance, the trade log, the
closed set, the processed-hash set, the open key set, and every position's
size, entry data, invested amount and state are unchanged — and it rewrites
a position's `currentPrice`/`currentTick`/`currentValue`/`unrealizedPnL`
exactly when the position's `tokenId` equals the given `tokenId` or, with no
`tokenId` given, for every position of the market via the legacy YES/NO
derivation. -/
theorem updateRealTimePrice_frame (now : ℤ) (cache : PriceCache) (s : Ledger)
    (marketId : String) (price : ℚ) (tokenId : Option String) :
    (updateRealTimePrice now cache s marketId price tokenId).2.balance = s.balance ∧
    (updateRealTimePrice now cache s marketId price tokenId).2.closedPositions =
      s.closedPositions ∧
    (updateRealTimePrice now cache s marketId price tokenId).2.tradeEvents =
      s.tradeEvents ∧
    (updateRealTimePrice now cache s marketId price tokenId).2.marketCache =
      s.marketCache ∧
    (updateRealTimePrice now cache s marketId price tokenId).2.processedTxHashes =
      s.processedTxHashes ∧
    (∀ k, (findKey (updateRealTimePrice now cache s marketId price tokenId).2.positions
        k).isSome = (findKey s.positions k).isSome) ∧
    (∀ k pos pos', findKey s.positions k = some pos →
      findKey (updateRealTimePrice now cache s marketId price tokenId).2.positions k =
        some pos' →
      (pos'.size = pos.size ∧ pos'.entryPrice = pos.entryPrice ∧
        pos'.entryTick = pos.entryTick ∧ pos'.investedUsd = pos.investedUsd ∧
        pos'.realizedPnL = pos.realizedPnL ∧ pos'.state = pos.state ∧
        pos'.marketId = pos.marketId ∧ pos'.tokenId = pos.tokenId ∧
        pos'.side = pos.side) ∧
      (rtTargets marketId tokenId pos →
        pos'.currentPrice = some (rtPrice price tokenId pos) ∧
        pos'.currentTick = some (toTick (rtPrice price tokenId pos)) ∧
        pos'.currentValue = some (rtPrice price tokenId pos * pos.size) ∧
        pos'.unrealizedPnL =
          some (rtPrice price tokenId pos * pos.size - pos.investedUsd)) ∧
      (¬ rtTargets marketId tokenId pos → pos' = pos)) := by
  have hpos : (updateRealTimePrice now cache s marketId price tokenId).2.positions =
      s.positions.map (fun kv => (kv.1, rtStep marketId price tokenId kv.2)) := rfl
  refine ⟨rfl, rfl, rfl, rfl, rfl, ?_, ?_⟩
  · intro k
    rw [hpos, findKey_map_step]
    cases findKey s.positions k <;> rfl
  · intro k pos pos' hfind hfind'
    rw [hpos, findKey_map_step, hfind] at hfind'
    injection hfind' with hpos'
    subst hpos'
    refine ⟨?_, ?_, ?_⟩
    · unfold rtStep rtUpdatedPos
      split
      · split
        · split <;> simp
        · simp
      · simp
    · intro htgt
      rcases htgt with ⟨hm, hmatch⟩
      cases tokenId with
      | some t =>
        simp only at hmatch
        simp [rtStep, rtUpdatedPos, rtPrice, hm, hmatch]
      | none =>
        simp [rtStep, rtUpdatedPos, rtPrice, hm]
    · intro htgt
      unfold rtTargets at htgt
      cases tokenId with
      | some t =>
        simp only at htgt
        by_cases hm : pos.marketId = marketId
        · have hnt : ¬ pos.tokenId = some t := fun hh => htgt ⟨hm, hh⟩
          simp [rtStep, hm, hnt]
        · simp [rtStep, hm]
      | none =>
        have hm : ¬ pos.marketId = marketId := fun hh => htgt ⟨hh, trivial⟩
        simp [rtStep, hm]

/-- Witness for C8: a price update at 0.60 for token `t1` of market `M`
against the ledger holding the 10-share position leaves the balance at 100
and rewrites the position's derived price to 0.60. -/
theorem updateRealTimePrice_frame_witness :
    (updateRealTimePrice 0 [] ledgerOpenPos "M" (3/5) (some "t1")).2.balance =
      ledgerOpenPos.balance ∧
    ∃ pos', findKey (updateRealTimePrice 0 [] ledgerOpenPos "M" (3/5)
        (some "t1")).2.positions "M-t1" = some pos' ∧
      pos'.size = posOpenHalf.size ∧ pos'.state = posOpenHalf.state ∧
      pos'.currentPrice = some (3/5) := by
  have h := updateRealTimePrice_frame 0 [] ledgerOpenPos "M" (3/5) (some "t1")
  have hfind : findKey ledgerOpenPos.positions "M-t1" = some posOpenHalf := by
    simp [ledgerOpenPos, findKey]
  have hsome := h.2.2.2.2.2.1 "M-t1"
  rw [hfind] at hsome
  rcases Option.isSome_iff_exists.mp hsome with ⟨pos', hpos'⟩
  have hfacts := h.2.2.2.2.2.2 "M-t1" posOpenHalf pos' hfind hpos'
  have htgt : rtTargets "M" (some "t1") posOpenHalf := by
    constructor
    · rfl
    · rfl
  refine ⟨h.1, pos', hpos', hfacts.1.1, hfacts.1.2.2.2.2.2.1, ?_⟩
  have := (hfacts.2.1 htgt).1
  rw [this]
  rfl

/-! ## `TradingEngine.tryClosePosition` — the centralized close -/

/-- `TradingEngine.getPriority` (the `default: 99` arm of the source switch is
unreachable for enum inputs). -/
def getPriority : CloseTrigger → ℕ
  | CloseTrigger.MARKET_RESOLUTION => 1
  | CloseTrigger.SYSTEM_GUARD => 2
  | CloseTrigger.USER_ACTION => 3
  | CloseTrigger.COPY_TRADER_EVENT => 4
  | CloseTrigger.SYSTEM_POLICY => 5
  | CloseTrigger.TIMEOUT => 6

/-- The resolution-pricing rule of `tryClosePosition` step 4: 1.0 when the
position's side matches the winning cause, else 0.0. -/
def resolutionExitPrice (cause : CloseCause) (side : Side) : ℚ :=
  if (cause = CloseCause.WINNER_YES ∧ side = Side.YES) ∨
      (cause = CloseCause.WINNER_NO ∧ side = Side.NO) then 1 else 0

/-- The transient `CLOSING` mutation of step 5 of `tryClosePosition`. -/
def closingPos (trigger : CloseTrigger) (cause : CloseCause) (pos : Position) : Position :=
  { pos with state := PositionState.CLOSING,
             closePriority := some (getPriority trigger),
             closeTrigger := some trigger, closeCause := some cause }

/-- The `updatePosition` argument record built by step 6 of
`tryClosePosition`. -/
def tryCloseArgs (now : ℤ) (marketId : String) (side : Side)
    (trigger : CloseTrigger) (cause : CloseCause) (exitPrice : ℚ)
    (pos : Position) : UpdateArgs :=
  { marketId := marketId, marketName := pos.marketName,
    marketSlug := pos.marketSlug, side := side,
    outcomeLabel := pos.outcomeLabel, sizeShares := -pos.size,
    price := exitPrice, txHash := triggerStr trigger ++ "-" ++ toString now,
    actionReason := triggerStr trigger ++ "|" ++ causeStr cause,
    sourcePrice := some 0, latencyMs := some 0,
    tokenId := pos.tokenId, marketType := pos.marketType }

/-- `TradingEngine.tryClosePosition`.  `livePrice` is the response of
`api.getLivePrice(marketId)`; `now` is `Date.now()`.  The transient
`state = CLOSING` write mutates the ledger's position object in place, the
commit goes through `updatePosition`, and a failed commit reverts the entry
(when it is still present under the engine's key) to `OPEN` with the
priority/trigger/cause cleared. -/
def tryClosePosition (now : ℤ) (livePrice : Option MarketPrice) (s : Ledger)
    (marketId : String) (side : Side) (trigger : CloseTrigger) (cause : CloseCause)
    (forcePrice : Option ℚ) (tokenId : Option String)
    (outcomeLabel : Option String) : Ledger :=
  let posKey0 :=
    match tokenId with
    | some t => marketId ++ "-" ++ t
    | none => marketId ++ "-" ++ sideStr side ++ "-" ++ outcomeLabel.getD "undefined"
  let lookup :=
    match findKey s.positions posKey0 with
    | some p => some (posKey0, p)
    | none =>
      match findKey s.positions (marketId ++ "-" ++ sideStr side) with
      | some p => some (marketId ++ "-" ++ sideStr side, p)
      | none => none
  match lookup with
  | none => s
  | some (posKey, pos) =>
    let isAllowedState := pos.state = PositionState.OPEN ∨
      (pos.state = PositionState.PENDING_RESOLUTION ∧
        trigger = CloseTrigger.MARKET_RESOLUTION)
    if ¬ isAllowedState then s
    else if trigger ≠ CloseTrigger.USER_ACTION ∧
        trigger ≠ CloseTrigger.MARKET_RESOLUTION ∧
        now - pos.lastEntryTime.getD 0 < 5000 then s
    else
      let incomingPriority := getPriority trigger
      let priorityBlocked : Bool :=
        match pos.closePriority with
        | some p => decide (incomingPriority > p)
        | none => false
      if priorityBlocked then s
      else
        let exitPrice0 := forcePrice.getD 0
        let exitPrice1 :=
          if exitPrice0 = 0 then
            if trigger = CloseTrigger.MARKET_RESOLUTION then
              resolutionExitPrice cause side
            else
              match livePrice with
              | some mp => if side = Side.YES then mp.bestBid else 1 - mp.bestAsk
              | none => pos.currentPrice.getD 0
          else exitPrice0
        let exitPrice := maxQ 0 (minQ 1 exitPrice1)
        let pos' := closingPos trigger cause pos
        let s' : Ledger := { s with positions := setKey s.positions posKey pos' }
        let args := tryCloseArgs now marketId side trigger cause exitPrice pos
        let r := updatePosition now s' args
        if r.1 then r.2
        else
          match findKey r.2.positions posKey with
          | some cur =>
            let reverted : Position :=
              { cur with
                state := PositionState.OPEN,
                closePriority := none,
                closeTrigger := none,
                closeCause := none }
            { r.2 with positions := setKey r.2.positions posKey reverted }
          | none => r.2

theorem parseReason_trigger_cause (tr : CloseTrigger) (c : CloseCause) :
    parseReason (triggerStr tr ++ "|" ++ causeStr c) = (triggerStr tr, causeStr c) := by
  cases tr <;> cases c <;> decide

theorem isSettlementReason_resolution (c : CloseCause) :
    isSettlementReason (triggerStr CloseTrigger.MARKET_RESOLUTION ++ "|" ++ causeStr c) =
      true := by
  cases c <;> decide

theorem resolutionExitPrice_cases (cause : CloseCause) (side : Side) :
    resolutionExitPrice cause side = 0 ∨ resolutionExitPrice cause side = 1 := by
  unfold resolutionExitPrice
  split
  · exact Or.inr rfl
  · exact Or.inl rfl

theorem maxQ_minQ_of_unit {x : ℚ} (h : x = 0 ∨ x = 1) : maxQ 0 (minQ 1 x) = x := by
  rcases h with h | h <;> rw [h] <;> norm_num [maxQ, minQ]

/-- A `MARKET_RESOLUTION` close (with forced price 0, as the lifecycle sweep
passes it) against an `OPEN` position resolved by its canonical token key,
whose pending close priority (if any) is not stronger than 1: the close
commits through the ledger, pays `resolutionExitPrice`, records the
resolution trigger and cause, removes the position from the open set, and
emits no SELL trade event. -/
theorem tryClose_resolution_commit (now : ℤ) (livePrice : Option MarketPrice)
    (s : Ledger) (marketId : String) (side : Side) (cause : CloseCause)
    (ol : Option String) (t : String) (pos : Position)
    (hfind : findKey s.positions (marketId ++ "-" ++ t) = some pos)
    (hstate : pos.state = PositionState.OPEN)
    (hptok : pos.tokenId = some t)
    (hpri : ∀ p, pos.closePriority = some p → 1 ≤ p)
    (hsz : 0 < pos.size)
    (hfresh : ("MARKET_RESOLUTION-" ++ toString now) ∉ s.processedTxHashes) :
    (tryClosePosition now livePrice s marketId side CloseTrigger.MARKET_RESOLUTION
        cause (some 0) (some t) ol).balance =
      s.balance + pos.size * resolutionExitPrice cause side ∧
    findKey (tryClosePosition now livePrice s marketId side
        CloseTrigger.MARKET_RESOLUTION cause (some 0) (some t) ol).positions
      (marketId ++ "-" ++ t) = none ∧
    (tryClosePosition now livePrice s marketId side CloseTrigger.MARKET_RESOLUTION
        cause (some 0) (some t) ol).tradeEvents = s.tradeEvents ∧
    ∃ rec, (tryClosePosition now livePrice s marketId side
        CloseTrigger.MARKET_RESOLUTION cause (some 0) (some t) ol).closedPositions =
        rec :: s.closedPositions ∧
      rec.size = pos.size ∧
      rec.entryPrice = pos.entryPrice ∧
      rec.entryTick = pos.entryTick ∧
      rec.exitPrice = resolutionExitPrice cause side ∧
      rec.exitTick = toTick (resolutionExitPrice cause side) ∧
      rec.realizedPnL = pos.realizedPnL +
        (pos.size * resolutionExitPrice cause side - pos.entryPrice * pos.size) ∧
      rec.closeTrigger = "MARKET_RESOLUTION" ∧
      rec.closeCause = causeStr cause ∧
      rec.side = side := by
  have hep := resolutionExitPrice_cases cause side
  have hepnn : 0 ≤ resolutionExitPrice cause side := by
    rcases hep with h | h <;> simp [h]
  have hclamp : maxQ 0 (minQ 1 (resolutionExitPrice cause side)) =
      resolutionExitPrice cause side := maxQ_minQ_of_unit hep
  set ep := resolutionExitPrice cause side with hepdef
  set pos' := closingPos CloseTrigger.MARKET_RESOLUTION cause pos with hposdef
  set s' : Ledger :=
    { s with positions := setKey s.positions (marketId ++ "-" ++ t) pos' } with hsdef
  set args := tryCloseArgs now marketId side CloseTrigger.MARKET_RESOLUTION cause ep pos
    with hargsdef
  have hargtok : args.tokenId = some t := by
    rw [hargsdef]
    simp [tryCloseArgs, hptok]
  have hargmid : args.marketId = marketId := rfl
  have hfind' : findKey s'.positions (args.marketId ++ "-" ++ t) = some pos' := by
    rw [hargmid, hsdef]
    exact findKey_setKey_self _ _ _
  have hstate' : pos'.state = PositionState.OPEN ∨ pos'.state = PositionState.CLOSING :=
    Or.inr rfl
  have hsell : args.sizeShares < 0 := by
    rw [hargsdef]
    simp only [tryCloseArgs]
    linarith
  have hfresh' : args.txHash ∉ s'.processedTxHashes := by
    rw [hargsdef]
    exact hfresh
  have hclose : pos'.size - absQ args.sizeShares < 1/10 := by
    have h1 : args.sizeShares = -pos.size := rfl
    have h2 : pos'.size = pos.size := rfl
    rw [h1, h2, absQ_neg_self pos.size (le_of_lt hsz)]
    norm_num
  have hupd := updatePosition_sell_close now s' args pos' t hargtok hfind' hstate'
    hsell hfresh' hclose
  have hrun : tryClosePosition now livePrice s marketId side
      CloseTrigger.MARKET_RESOLUTION cause (some 0) (some t) ol =
      (updatePosition now s' args).2 := by
    simp only [tryClosePosition, hfind]
    rw [if_neg (by simp [hstate])]
    rw [if_neg (by simp)]
    have hblock : (match pos.closePriority with
        | some p => decide (getPriority CloseTrigger.MARKET_RESOLUTION > p)
        | none => false) = false := by
      cases hcp : pos.closePriority with
      | none => rfl
      | some p =>
        simp only [getPriority]
        have := hpri p hcp
        simp only [decide_eq_false_iff_not]
        omega
    rw [hblock]
    simp only [Bool.false_eq_true, if_false, Option.getD_some, if_true]
    rw [← hepdef, hclamp, ← hposdef, ← hsdef, ← hargsdef, hupd]
    simp
  rw [hrun, hupd]
  have habs : absQ args.sizeShares = pos.size := by
    have h1 : args.sizeShares = -pos.size := rfl
    rw [h1, absQ_neg_self pos.size (le_of_lt hsz)]
  have habsm : absQ (args.sizeShares * args.price) = pos.size * ep := by
    have h1 : args.sizeShares = -pos.size := rfl
    have h2 : args.price = ep := rfl
    rw [h1, h2, neg_mul, absQ_nonpos (by nlinarith), neg_neg]
  have hsettle : isSettlementReason args.actionReason = true := by
    have h1 : args.actionReason =
        triggerStr CloseTrigger.MARKET_RESOLUTION ++ "|" ++ causeStr cause := rfl
    rw [h1, isSettlementReason_resolution]
  refine ⟨?_, ?_, ?_, ?_⟩
  · rw [markProcessed_balance]
    simp only [habsm]
  · rw [markProcessed_positions]
    exact findKey_delKey_self _ _
  · rw [markProcessed_tradeEvents]
    simp only [hsettle, if_true]
  · refine ⟨closedRecOf now args pos', ?_, ?_, ?_, ?_, ?_, ?_, ?_, ?_, ?_, ?_⟩
    · rw [markProcessed_closedPositions]
    · simp only [closedRecOf, habs]
    · rfl
    · rfl
    · rfl
    · rfl
    · simp only [closedRecOf, habs]
      have h2 : args.price = ep := rfl
      have h3 : pos'.realizedPnL = pos.realizedPnL := rfl
      have h4 : pos'.entryPrice = pos.entryPrice := rfl
      rw [h2, h3, h4]
    · have h1 : args.actionReason =
          triggerStr CloseTrigger.MARKET_RESOLUTION ++ "|" ++ causeStr cause := rfl
      simp only [closedRecOf, h1, parseReason_trigger_cause]
      rfl
    · have h1 : args.actionReason =
          triggerStr CloseTrigger.MARKET_RESOLUTION ++ "|" ++ causeStr cause := rfl
      simp only [closedRecOf, h1, parseReason_trigger_cause]
    · rfl

theorem toTick_one : toTick 1 = 999 := by
  have h : ((1 : ℚ) * 1000) = ((1000 : ℤ) : ℚ) := by norm_num
  rw [toTick, TICK_SCALE, h, Int.floor_intCast]
  decide

theorem toTick_zero : toTick 0 = 1 := by
  have h : ((0 : ℚ) * 1000) = ((0 : ℤ) : ℚ) := by norm_num
  rw [toTick, TICK_SCALE, h, Int.floor_intCast]
  decide

/-- The 10-share YES position in state `CLOSING` with a pending copy-trader
close of priority 4. -/
def posClosingPri4 : Position :=
  { posOpenHalf with
    state := PositionState.CLOSING,
    closePriority := some 4,
    closeTrigger := some CloseTrigger.COPY_TRADER_EVENT,
    closeCause := some CloseCause.TARGET_SELLOFF }

/-- A ledger holding `posClosingPri4`. -/
def ledgerClosingPos : Ledger :=
  { balance := 100, positions := [("M-t1", posClosingPri4)],
    closedPositions := [], tradeEvents := [], marketCache := [],
    processedTxHashes := [] }

/-- C3 (counterexample): a position in state `CLOSING` with `closePriority=4`
is NOT overwritten by a `MARKET_RESOLUTION` close of priority 1 — the state
gate of `tryClosePosition` admits only `OPEN` (or `PENDING_RESOLUTION` with a
resolution trigger), so the call is a no-op and nothing reaches
`closedPositions`. -/
theorem tryClose_closing_state_blocks_resolution :
    tryClosePosition 0 none ledgerClosingPos "M" Side.YES
        CloseTrigger.MARKET_RESOLUTION CloseCause.WINNER_YES (some 0)
        (some "t1") (some "Yes") = ledgerClosingPos ∧
      ledgerClosingPos.closedPositions = [] := by
  constructor
  · have e1 : ("M" ++ "-" ++ "t1" : String) = "M-t1" := by simp
    simp [tryClosePosition, ledgerClosingPos, posClosingPri4, posOpenHalf, findKey, e1]
  · rfl

/-- C3 (amended): (i) once a position carries `closePriority = p`, any call of
the centralized close with a trigger of numerically greater priority is a
no-op; (ii) a priority-1 `MARKET_RESOLUTION` close does overwrite a pending
priority-4 copy-trader close when the position is in state `OPEN` — the cause
is updated and `closedPositions` records `MARKET_RESOLUTION` —, whereas a
position already in state `CLOSING` fails the state gate (see the
counterexample). -/
theorem close_priority_arbitration :
    (∀ (now : ℤ) (lp : Option MarketPrice) (s : Ledger) (marketId : String)
        (side : Side) (trigger : CloseTrigger) (cause : CloseCause)
        (fp : Option ℚ) (t : String) (ol : Option String) (pos : Position) (p : ℕ),
      findKey s.positions (marketId ++ "-" ++ t) = some pos →
      pos.closePriority = some p →
      getPriority trigger > p →
      tryClosePosition now lp s marketId side trigger cause fp (some t) ol = s) ∧
    (∀ (now : ℤ) (lp : Option MarketPrice) (s : Ledger) (marketId : String)
        (side : Side) (cause : CloseCause) (ol : Option String) (t : String)
        (pos : Position),
      findKey s.positions (marketId ++ "-" ++ t) = some pos →
      pos.state = PositionState.OPEN →
      pos.tokenId = some t →
      pos.closePriority = some 4 →
      0 < pos.size →
      ("MARKET_RESOLUTION-" ++ toString now) ∉ s.processedTxHashes →
      ∃ rec, (tryClosePosition now lp s marketId side
          CloseTrigger.MARKET_RESOLUTION cause (some 0) (some t) ol).closedPositions =
          rec :: s.closedPositions ∧
        rec.closeTrigger = "MARKET_RESOLUTION" ∧
        rec.closeCause = causeStr cause ∧
        findKey (tryClosePosition now lp s marketId side
            CloseTrigger.MARKET_RESOLUTION cause (some 0) (some t) ol).positions
          (marketId ++ "-" ++ t) = none) := by
  constructor
  · intro now lp s marketId side trigger cause fp t ol pos p hfind hp hgt
    simp only [tryClosePosition, hfind]
    split
    · rfl
    · split
      · rfl
      · rw [hp]
        simp [hgt]
  · intro now lp s marketId side cause ol t pos hfind hstate hptok hp4 hsz hfresh
    have hpri : ∀ p, pos.closePriority = some p → 1 ≤ p := by
      intro p hp
      rw [hp4] at hp
      injection hp with h
      omega
    have h := tryClose_resolution_commit now lp s marketId side cause ol t pos
      hfind hstate hptok hpri hsz hfresh
    rcases h.2.2.2 with ⟨rec, hrec, _, _, _, _, _, _, htr, hca, _⟩
    exact ⟨rec, hrec, htr, hca, h.2.1⟩

/-- The open 10-share position carrying `closePriority = 4`. -/
def posOpenPri4 : Position := { posOpenHalf with closePriority := some 4 }

/-- The open 10-share position carrying `closePriority = 1`. -/
def posOpenPri1 : Position := { posOpenHalf with closePriority := some 1 }

/-- A ledger holding `posOpenPri4` (pending priority-4 close, state OPEN). -/
def ledgerOpenPri4 : Ledger :=
  { balance := 100, positions := [("M-t1", posOpenPri4)],
    closedPositions := [], tradeEvents := [], marketCache := [],
    processedTxHashes := [] }

/-- A ledger holding `posOpenPri1` (pending priority-1 close, state OPEN). -/
def ledgerOpenPri1 : Ledger :=
  { balance := 100, positions := [("M-t1", posOpenPri1)],
    closedPositions := [], tradeEvents := [], marketCache := [],
    processedTxHashes := [] }

/-- Witness for C3 (amended): a copy-trader close (priority 4) against a
pending priority-1 close is a no-op, and a resolution close (priority 1)
against a pending priority-4 close on an `OPEN` position lands in
`closedPositions` with trigger `MARKET_RESOLUTION`. -/
theorem close_priority_arbitration_witness :
    tryClosePosition 999999 none ledgerOpenPri1 "M" Side.YES
        CloseTrigger.COPY_TRADER_EVENT CloseCause.TARGET_SELLOFF (some (1/2))
        (some "t1") (some "Yes") = ledgerOpenPri1 ∧
    ∃ rec, (tryClosePosition 0 none ledgerOpenPri4 "M" Side.YES
        CloseTrigger.MARKET_RESOLUTION CloseCause.WINNER_YES (some 0)
        (some "t1") (some "Yes")).closedPositions = rec :: [] ∧
      rec.closeTrigger = "MARKET_RESOLUTION" ∧ rec.closeCause = "WINNER_YES" := by
  constructor
  · exact close_priority_arbitration.1 999999 none ledgerOpenPri1 "M" Side.YES
      CloseTrigger.COPY_TRADER_EVENT CloseCause.TARGET_SELLOFF (some (1/2))
      "t1" (some "Yes") posOpenPri1 1
      (by simp [ledgerOpenPri1, findKey, posOpenPri1]) rfl (by decide)
  · rcases close_priority_arbitration.2 0 none ledgerOpenPri4 "M" Side.YES
      CloseCause.WINNER_YES (some "Yes") "t1" posOpenPri4
      (by simp [ledgerOpenPri4, findKey, posOpenPri4]) rfl rfl rfl
      (by norm_num [posOpenPri4, posOpenHalf]) (by simp [ledgerOpenPri4])
      with ⟨rec, hrec, htr, hca, _⟩
    exact ⟨rec, hrec, htr, hca⟩

/-- C4 (amended): for a `MARKET_RESOLUTION` close (with forced price 0, as
the lifecycle sweep invokes it) that commits, the recorded exit tick is 999
exactly when `(cause=WINNER_YES ∧ side=YES) ∨ (cause=WINNER_NO ∧ side=NO)`
and 1 otherwise; the recorded realized PnL, however, is computed from the
unclamped settlement price (1.0 for a winner, 0.0 for a loser):
`realizedPnL = prior + size*(1.0 − entryPrice)` for a winning YES holder —
not `size*(0.999 − entryPrice)` as the claim states (see the
counterexample). -/
theorem resolution_pricing (now : ℤ) (lp : Option MarketPrice) (s : Ledger)
    (marketId : String) (side : Side) (cause : CloseCause) (ol : Option String)
    (t : String) (pos : Position)
    (hfind : findKey s.positions (marketId ++ "-" ++ t) = some pos)
    (hstate : pos.state = PositionState.OPEN)
    (hptok : pos.tokenId = some t)
    (hpri : pos.closePriority = none)
    (hsz : 0 < pos.size)
    (hfresh : ("MARKET_RESOLUTION-" ++ toString now) ∉ s.processedTxHashes) :
    ∃ rec, (tryClosePosition now lp s marketId side
        CloseTrigger.MARKET_RESOLUTION cause (some 0) (some t) ol).closedPositions =
        rec :: s.closedPositions ∧
      rec.exitTick = (if (cause = CloseCause.WINNER_YES ∧ side = Side.YES) ∨
          (cause = CloseCause.WINNER_NO ∧ side = Side.NO) then 999 else 1) ∧
      rec.closeCause = causeStr cause ∧
      rec.realizedPnL = pos.realizedPnL +
        pos.size * (resolutionExitPrice cause side - pos.entryPrice) ∧
      ((cause = CloseCause.WINNER_YES ∧ side = Side.YES) →
        rec.exitTick = 999 ∧
          rec.realizedPnL = pos.realizedPnL + pos.size * (1 - pos.entryPrice)) := by
  have h := tryClose_resolution_commit now lp s marketId side cause ol t pos
    hfind hstate hptok (by intro p hp; rw [hpri] at hp; exact absurd hp (by simp))
    hsz hfresh
  rcases h.2.2.2 with ⟨rec, hrec, _, _, _, _, hext, hpnl, _, hca, _⟩
  have htick : rec.exitTick = (if (cause = CloseCause.WINNER_YES ∧ side = Side.YES) ∨
      (cause = CloseCause.WINNER_NO ∧ side = Side.NO) then 999 else 1) := by
    rw [hext]
    unfold resolutionExitPrice
    split
    · exact toTick_one
    · exact toTick_zero
  have hpnl' : rec.realizedPnL = pos.realizedPnL +
      pos.size * (resolutionExitPrice cause side - pos.entryPrice) := by
    rw [hpnl]
    ring
  refine ⟨rec, hrec, htick, hca, hpnl', ?_⟩
  intro hwin
  constructor
  · rw [htick, if_pos (Or.inl hwin)]
  · rw [hpnl']
    have : resolutionExitPrice cause side = 1 := by
      unfold resolutionExitPrice
      rw [if_pos (Or.inl hwin)]
    rw [this]

/-- C4 (counterexample): a winning YES holder of 10 shares entered at 0.50 is
settled with `exitTick = 999` but `realizedPnL = 10*(1.0 − 0.50) = 5`, which
differs from the claimed `size*(0.999 − entryPrice) = 4.99`: the ledger's
cash arithmetic uses the raw settlement price 1.0, not the clamped tick. -/
theorem resolution_pnl_uses_full_price :
    ∃ rec, (tryClosePosition 0 none ledgerOpenPos "M" Side.YES
        CloseTrigger.MARKET_RESOLUTION CloseCause.WINNER_YES (some 0)
        (some "t1") (some "Yes")).closedPositions = [rec] ∧
      rec.exitTick = 999 ∧ rec.realizedPnL = 5 ∧
      rec.realizedPnL ≠ 10 * (999/1000 - 1/2) := by
  rcases resolution_pricing 0 none ledgerOpenPos "M" Side.YES
      CloseCause.WINNER_YES (some "Yes") "t1" posOpenHalf
      (by simp [ledgerOpenPos, findKey]) rfl rfl rfl
      (by norm_num [posOpenHalf]) (by simp [ledgerOpenPos])
    with ⟨rec, hrec, htick, _, _, hwin⟩
  have hw := hwin ⟨rfl, rfl⟩
  refine ⟨rec, ?_, hw.1, ?_, ?_⟩
  · rw [hrec]
    rfl
  · rw [hw.2]
    norm_num [posOpenHalf]
  · rw [hw.2]
    norm_num [posOpenHalf]

/-- Witness for C4 (amended): the winning YES holder of `ledgerOpenPos` is
settled at exit tick 999 with realized PnL `0 + 10*(1 − 0.5)`. -/
theorem resolution_pricing_witness :
    ∃ rec, (tryClosePosition 0 none ledgerOpenPos "M" Side.YES
        CloseTrigger.MARKET_RESOLUTION CloseCause.WINNER_YES (some 0)
        (some "t1") (some "Yes")).closedPositions =
        rec :: ledgerOpenPos.closedPositions ∧
      rec.exitTick = 999 ∧ rec.closeCause = "WINNER_YES" ∧
      rec.realizedPnL = posOpenHalf.realizedPnL +
        posOpenHalf.size * (1 - posOpenHalf.entryPrice) := by
  rcases resolution_pricing 0 none ledgerOpenPos "M" Side.YES
      CloseCause.WINNER_YES (some "Yes") "t1" posOpenHalf
      (by simp [ledgerOpenPos, findKey]) rfl rfl rfl
      (by norm_num [posOpenHalf]) (by simp [ledgerOpenPos])
    with ⟨rec, hrec, _, hca, _, hwin⟩
  have hw := hwin ⟨rfl, rfl⟩
  exact ⟨rec, hrec, hw.1, hca, hw.2⟩

/-! ## The REST price fallback stage of `TradingEngine.startPolling` -/

/-- The diagnostic counters of the fallback loop. -/
structure RestCounters where
  skippedCache : ℕ
  skippedNoToken : ℕ
  updated : ℕ
  failed : ℕ
deriving DecidableEq, Repr

/-- One iteration of the REST price-fallback loop over a position.  The
30-second cache-freshness test only increments `skippedCache` — the `continue`
that once skipped fresh positions is commented out in the source
("DISABLED CACHE: Always fetch fresh prices").  `fetchBook` is
`api.getOrderBookForToken`. -/
def restFallbackStep (now : ℤ) (cache : PriceCache)
    (marketCache : AList MarketCacheEntry) (fetchBook : String → Option OrderBook)
    (pos : Position) (c : RestCounters) : Position × RestCounters :=
  let cacheKey := pos.tokenId.getD pos.marketId
  let c1 :=
    match findKey cache cacheKey with
    | some entry =>
      if now - entry.timestamp < 30000 then
        { c with skippedCache := c.skippedCache + 1 }
      else c
    | none => c
  match pos.tokenId with
  | none => (pos, { c1 with skippedNoToken := c1.skippedNoToken + 1 })
  | some tid =>
    let fetchInfo : String × Bool :=
      if pos.marketType = some MarketType.MULTI ∧ pos.side = Side.NO then
        match findKey marketCache pos.marketId with
        | some mc =>
          if mc.clobTokenIds.length ≥ 2 then
            match mc.clobTokenIds.find? (fun x => x != tid) with
            | some yesToken => (yesToken, true)
            | none => (tid, false)
          else (tid, false)
        | none => (tid, false)
      else (tid, false)
    match fetchBook fetchInfo.1 with
    | some ob =>
      if ob.bids ≠ [] ∧ ob.asks ≠ [] then
        let bestBid := (ob.bids.headD ⟨0, 0⟩).price
        let bestAsk := (ob.asks.headD ⟨0, 0⟩).price
        let yesMidPrice := (bestBid + bestAsk) / 2
        let currentPrice := if fetchInfo.2 then 1 - yesMidPrice else yesMidPrice
        if currentPrice > 0 then
          ({ pos with currentPrice := some currentPrice,
                      currentValue := some (currentPrice * pos.size),
                      unrealizedPnL := some (currentPrice * pos.size - pos.investedUsd) },
           { c1 with updated := c1.updated + 1 })
        else (pos, c1)
      else (pos, { c1 with failed := c1.failed + 1 })
    | none => (pos, { c1 with failed := c1.failed + 1 })

/-- The whole REST price-fallback pass over the open positions (lines of the
main polling loop following the lifecycle and liquidity stages). -/
def restPriceFallback (now : ℤ) (cache : PriceCache)
    (marketCache : AList MarketCacheEntry) (fetchBook : String → Option OrderBook) :
    AList Position → RestCounters → AList Position × RestCounters
  | [], c => ([], c)
  | kv :: rest, c =>
    let r := restFallbackStep now cache marketCache fetchBook kv.2 c
    let rrest := restPriceFallback now cache marketCache fetchBook rest r.2
    ((kv.1, r.1) :: rrest.1, rrest.2)

theorem restFallbackStep_fst_indep (now now' : ℤ) (c c' : PriceCache)
    (mc : AList MarketCacheEntry) (fb : String → Option OrderBook)
    (pos : Position) (cnt cnt' : RestCounters) :
    (restFallbackStep now c mc fb pos cnt).1 =
      (restFallbackStep now' c' mc fb pos cnt').1 := by
  unfold restFallbackStep
  cases pos.tokenId with
  | none => rfl
  | some tid =>
    simp only []
    repeat' first
      | rfl
      | split

/-- C7 (amended): the set of positions rewritten by the REST price fallback
does not depend on the price cache at all — for any two cache states (and
any two clock values and counter states) the resulting positions are
identical; and the fallback rewrites the derived price fields of every
position that has a `tokenId` and whose fetched (YES-leg) book is two-sided
with a positive derived mid price.  The cache-freshness test only feeds the
`skippedCache` log counter. -/
theorem rest_fallback_cache_blind :
    (∀ (now now' : ℤ) (c c' : PriceCache) (mc : AList MarketCacheEntry)
        (fb : String → Option OrderBook) (ps : AList Position)
        (cnt cnt' : RestCounters),
      (restPriceFallback now c mc fb ps cnt).1 =
        (restPriceFallback now' c' mc fb ps cnt').1) ∧
    (∀ (now : ℤ) (c : PriceCache) (mc : AList MarketCacheEntry)
        (fb : String → Option OrderBook) (pos : Position) (cnt : RestCounters)
        (t : String) (ob : OrderBook),
      pos.tokenId = some t →
      ¬ (pos.marketType = some MarketType.MULTI ∧ pos.side = Side.NO) →
      fb t = some ob →
      ob.bids ≠ [] →
      ob.asks ≠ [] →
      0 < ((ob.bids.headD ⟨0, 0⟩).price + (ob.asks.headD ⟨0, 0⟩).price) / 2 →
      (restFallbackStep now c mc fb pos cnt).1.currentPrice =
        some (((ob.bids.headD ⟨0, 0⟩).price + (ob.asks.headD ⟨0, 0⟩).price) / 2) ∧
      (restFallbackStep now c mc fb pos cnt).1.currentValue =
        some ((((ob.bids.headD ⟨0, 0⟩).price + (ob.asks.headD ⟨0, 0⟩).price) / 2) *
          pos.size) ∧
      (restFallbackStep now c mc fb pos cnt).1.size = pos.size ∧
      (restFallbackStep now c mc fb pos cnt).1.state = pos.state) := by
  constructor
  · intro now now' c c' mc fb ps
    induction ps with
    | nil => intro cnt cnt'; rfl
    | cons kv rest ih =>
      intro cnt cnt'
      simp only [restPriceFallback]
      rw [restFallbackStep_fst_indep now now' c c' mc fb kv.2 cnt cnt']
      rw [ih _ _]
  · intro now c mc fb pos cnt t ob htok hnm hfb hbids hasks hpr
    unfold restFallbackStep
    rw [htok]
    simp only [if_neg hnm, hfb, ne_eq]
    rw [if_pos ⟨hbids, hasks⟩]
    simp only [Bool.false_eq_true, if_false, gt_iff_lt]
    rw [if_pos hpr]
    exact ⟨rfl, rfl, rfl, rfl⟩

/-- The book served for token `t1` in the C7 counterexample: best bid 0.60,
best ask 0.70. -/
def c7fetch : String → Option OrderBook := fun tk =>
  if tk = "t1" then some { bids := [⟨3/5, 10⟩], asks := [⟨7/10, 10⟩] } else none

/-- C7 (counterexample): an open position whose price-cache entry is 0 seconds
old (fresher than 30 s) is NOT skipped by the REST fallback — the pass
fetches the book and rewrites `currentPrice` to the fresh mid 0.65 while
counting the position under `skippedCache`. -/
theorem rest_fallback_updates_despite_fresh_cache :
    ((0 : ℤ) - 0 < 30000) ∧
    (restPriceFallback 0 [("t1", ⟨1/2, 0⟩)] [] c7fetch [("M-t1", posOpenHalf)]
        ⟨0, 0, 0, 0⟩).2.skippedCache = 1 ∧
    ((restPriceFallback 0 [("t1", ⟨1/2, 0⟩)] [] c7fetch [("M-t1", posOpenHalf)]
        ⟨0, 0, 0, 0⟩).1.map (fun kv => kv.2.currentPrice)) = [some (13/20)] ∧
    posOpenHalf.currentPrice ≠ some (13/20) := by
  refine ⟨by norm_num, ?_, ?_, by simp [posOpenHalf]⟩
  · norm_num [restPriceFallback, restFallbackStep, posOpenHalf, findKey, c7fetch]
  · norm_num [restPriceFallback, restFallbackStep, posOpenHalf, findKey, c7fetch]

/-- Witness for the C7 theorem at concrete inputs: the positions produced by a
pass are the same under an empty cache and a fresh cache, and the single-leg
update characterization fires on `posOpenHalf` against `c7fetch`. -/
theorem rest_fallback_cache_blind_witness :
    ((restPriceFallback 0 [] [] c7fetch [("M-t1", posOpenHalf)] ⟨0, 0, 0, 0⟩).1 =
      (restPriceFallback 7 [("t1", ⟨1/2, 0⟩)] [] c7fetch [("M-t1", posOpenHalf)]
        ⟨1, 2, 3, 4⟩).1) ∧
    posOpenHalf.tokenId = some "t1" ∧
    ¬ (posOpenHalf.marketType = some MarketType.MULTI ∧ posOpenHalf.side = Side.NO) ∧
    c7fetch "t1" = some { bids := [⟨3/5, 10⟩], asks := [⟨7/10, 10⟩] } ∧
    (restFallbackStep 0 [] [] c7fetch posOpenHalf ⟨0, 0, 0, 0⟩).1.currentPrice =
      some (((3/5 : ℚ) + 7/10) / 2) := by
  have htok : posOpenHalf.tokenId = some "t1" := by simp [posOpenHalf]
  have hnm : ¬ (posOpenHalf.marketType = some MarketType.MULTI ∧
      posOpenHalf.side = Side.NO) := by simp [posOpenHalf]
  have hfb : c7fetch "t1" =
      some { bids := [⟨3/5, 10⟩], asks := [⟨7/10, 10⟩] } := by simp [c7fetch]
  refine ⟨rest_fallback_cache_blind.1 0 7 [] [("t1", ⟨1/2, 0⟩)] [] c7fetch
      [("M-t1", posOpenHalf)] ⟨0, 0, 0, 0⟩ ⟨1, 2, 3, 4⟩, htok, hnm, hfb, ?_⟩
  have h := (rest_fallback_cache_blind.2 0 [] [] c7fetch posOpenHalf ⟨0, 0, 0, 0⟩
      "t1" { bids := [⟨3/5, 10⟩], asks := [⟨7/10, 10⟩] } htok hnm hfb
      (by simp) (by simp) (by norm_num)).1
  simpa using h

/-! ## `TradingEngine.processAutoTrade` and the slippage calculator -/

/-- JavaScript `a || b` on an optional string (`undefined` and `""` are
falsy). -/
def jsStrOr (o : Option String) (d : String) : String :=
  match o with
  | some v => if v = "" then d else v
  | none => d

/-- JavaScript `parseFloat(x || d)` on an optional numeric field
(`undefined` and `0` are falsy). -/
def jsNumOr (o : Option ℚ) (d : ℚ) : ℚ :=
  match o with
  | some v => if v = 0 then d else v
  | none => d

/-- `Math.max` on integers (`Date.now()` arithmetic). -/
def maxI (a b : ℤ) : ℤ := if a < b then b else a

/-- JavaScript `toUpperCase` on the ASCII strings the engine compares. -/
def strUpper (s : String) : String := String.mk (s.toList.map Char.toUpper)

/-- `SlippageEstimate` (JavaScript `Infinity` is modeled as `none`). -/
structure SlippageEstimate where
  spreadPct : Option ℚ
  impactPct : Option ℚ
  delayPenalty : ℚ
  totalSlippage : Option ℚ
  d1Percent : ℚ
  shouldExecute : Bool
deriving DecidableEq, Repr

/-- The `SlippageCalculator` constructor: an override outside the 0.2%-0.5%
band falls back to the default 0.3%. -/
def mkDelayPenalty (delayPenaltyOverride : Option ℚ) : ℚ :=
  match delayPenaltyOverride with
  | some d => if d < 1/500 ∨ d > 1/200 then 3/1000 else d
  | none => 3/1000

/-- `SlippageCalculator.calculateD1Percent`: USDC liquidity within 1% of the
touch on the side the trade hits. -/
def calculateD1Percent (orderBook : OrderBook) (bestBidTick bestAskTick : ℤ)
    (isBuy : Bool) : ℚ :=
  if isBuy then
    let askThresholdTick := ⌊(bestAskTick : ℚ) * (101/100)⌋
    orderBook.asks.foldl
      (fun acc level =>
        let levelTick := toTick level.price
        if levelTick ≤ askThresholdTick then
          acc + ((levelTick : ℚ) / TICK_SCALE) * level.size
        else acc) 0
  else
    let bidThresholdTick := ⌊(bestBidTick : ℚ) * (99/100)⌋
    orderBook.bids.foldl
      (fun acc level =>
        let levelTick := toTick level.price
        if levelTick ≥ bidThresholdTick then
          acc + ((levelTick : ℚ) / TICK_SCALE) * level.size
        else acc) 0

/-- `SlippageCalculator.calculateExpectedSlippage`.  The order-book-structure
validation branch of the source cannot fire in the embedding, where a book is
a record of two lists. -/
def calculateExpectedSlippage (delayPenalty : ℚ) (marketPrice : MarketPrice)
    (orderBook : OrderBook) (tradeSize : ℚ) (isBuy : Bool)
    (expectedEdge : ℚ) : SlippageEstimate :=
  let bestBidTick := toTick marketPrice.bestBid
  let bestAskTick := toTick marketPrice.bestAsk
  let midPriceTick : ℚ := ((bestBidTick : ℚ) + (bestAskTick : ℚ)) / 2
  if tradeSize ≤ 0 then
    { spreadPct := some 0, impactPct := some 0, delayPenalty := delayPenalty,
      totalSlippage := some 0, d1Percent := 0, shouldExecute := false }
  else if midPriceTick ≤ 0 then
    { spreadPct := none, impactPct := none, delayPenalty := delayPenalty,
      totalSlippage := none, d1Percent := 0, shouldExecute := false }
  else if bestAskTick ≤ 0 ∨ bestBidTick ≤ 0 then
    { spreadPct := none, impactPct := none, delayPenalty := delayPenalty,
      totalSlippage := none, d1Percent := 0, shouldExecute := false }
  else
    let spreadPct := ((bestAskTick : ℚ) - (bestBidTick : ℚ)) / midPriceTick
    let d1Percent := calculateD1Percent orderBook bestBidTick bestAskTick isBuy
    let impactPct : Option ℚ :=
      if d1Percent = 0 then none else some (tradeSize / d1Percent)
    let totalSlippage : Option ℚ :=
      match impactPct with
      | none => none
      | some i => some (spreadPct + i + delayPenalty)
    if spreadPct > 15/100 then
      { spreadPct := some spreadPct, impactPct := impactPct,
        delayPenalty := delayPenalty, totalSlippage := totalSlippage,
        d1Percent := d1Percent, shouldExecute := false }
    else
      let threshold := spreadPct + expectedEdge * (2/5)
      let shouldExecute : Bool :=
        match totalSlippage with
        | some ts => decide (ts ≤ threshold)
        | none => false
      { spreadPct := some spreadPct, impactPct := impactPct,
        delayPenalty := delayPenalty, totalSlippage := totalSlippage,
        d1Percent := d1Percent, shouldExecute := shouldExecute }

/-- The container returned by `api.getMarketDetails`: the fields
`processAutoTrade` reads, plus the length of the container's `markets`
array, from which `MarketLifecycle.getMarketLifecycle` derives the market
type. -/
structure MarketDetailsResp where
  question : String
  slug : String
  outcomes : List String
  clobTokenIds : List String
  endTime : Option ℤ
  model : Option NormalizedMarket
  marketsCount : ℕ
deriving DecidableEq, Repr

/-- `MarketLifecycle.getMarketLifecycle(container, id).marketType`: `MULTI`
exactly when the container groups more than one market. -/
def lifecycleMarketType (marketsCount : ℕ) : MarketType :=
  if marketsCount > 1 then MarketType.MULTI else MarketType.SINGLE

inductive TradeAmountMode
  | PERCENTAGE
  | FIXED
deriving DecidableEq, Repr

structure TradeAmountSettings where
  mode : TradeAmountMode
  percentage : ℚ
  fixedAmountUsd : ℚ
deriving DecidableEq, Repr

/-- A raw activity row from the data API: the fields `processAutoTrade`
reads (absent fields are `none`; `timestamp` is in seconds). -/
structure RawActivity where
  id : String
  transactionHash : Option String
  timestamp : ℤ
  side : String
  outcome : String
  size : Option ℚ
  price : Option ℚ
  marketId : Option String
  conditionId : Option String
deriving DecidableEq, Repr

/-- The engine's surroundings for one `processAutoTrade` call: the clock
values, the position filter's blacklist, the responses of the call's API
fetches, the sizing settings and the config constants. -/
structure EngineEnv where
  botStartupTime : ℤ
  now : ℤ
  fetchTime : ℤ
  blacklist : List String
  marketDetails : Option MarketDetailsResp
  orderBook : Option OrderBook
  freshOrderBook : Option OrderBook
  livePrice : Option MarketPrice
  settings : TradeAmountSettings
  enableTradeFilters : Bool
  expectedEdge : ℚ
  minOrderSizeShares : ℚ
  slippageDelayPenalty : Option ℚ
deriving DecidableEq, Repr

/-- `TradingEngine.processAutoTrade`: the full pipeline from a raw activity
row to a ledger mutation, returning the ledger unchanged (up to a possible
market-metadata cache write) on every skip path.  `env.marketDetails` stands
for both `api.getMarketDetails` calls of the body. -/
def processAutoTrade (env : EngineEnv) (s : Ledger) (raw : RawActivity) : Ledger :=
  let msTimestamp := raw.timestamp * 1000
  let txHash := jsStrOr raw.transactionHash raw.id
  if msTimestamp < env.botStartupTime then s
  else if (s.tradeEvents.find? (fun e => e.eventId == txHash)).isSome then s
  else
    let rawSide := strUpper raw.side
    let isBuy := rawSide = "BUY"
    let marketId :=
      match raw.marketId with
      | some m => if m = "" then raw.conditionId.getD "" else m
      | none => raw.conditionId.getD ""
    if marketId ∈ env.blacklist then s
    else
      let metaFetch : String × String × Option NormalizedMarket × Ledger :=
        match env.marketDetails with
        | some meta =>
          let s2 := updateMarketCache s marketId meta.question meta.slug
            meta.outcomes meta.clobTokenIds meta.endTime meta.model
          (meta.question, meta.slug,
            (findKey s2.marketCache marketId).bind (fun c => c.model), s2)
        | none => ("Loading...", "", none, s)
      let step1 : String × String × Option NormalizedMarket × Ledger :=
        match findKey s.marketCache marketId with
        | some cm =>
          match cm.model with
          | some m => (cm.question, cm.slug, some m, s)
          | none => metaFetch
        | none => metaFetch
      let marketName := step1.1
      let marketSlug := step1.2.1
      let s1 := step1.2.2.2
      match step1.2.2.1 with
      | none => s1
      | some model =>
        let marketType :=
          match env.marketDetails with
          | some container => lifecycleMarketType container.marketsCount
          | none => MarketType.SINGLE
        let rawOutcomeStr := strUpper raw.outcome
        let selectedOutcome :=
          match model.outcomes.find? (fun o => strUpper o.label == rawOutcomeStr) with
          | some o => some o
          | none =>
            if model.type = MarketModelType.binary then
              if ["YES", "1", "TRUE", "UP", "PASS"].contains rawOutcomeStr then
                model.outcomes.find?
                  (fun o => ["YES", "TRUE", "1"].contains (strUpper o.label))
              else if ["NO", "0", "FALSE", "DOWN", "FAIL"].contains rawOutcomeStr then
                model.outcomes.find?
                  (fun o => ["NO", "FALSE", "0"].contains (strUpper o.label))
              else none
            else none
        match selectedOutcome with
        | none => s1
        | some sel =>
          let outcomeLabel := sel.label
          let tokenId := sel.tokenId
          let side : Side :=
            if model.type = MarketModelType.binary then
              match model.outcomes.find? (fun o => o.tokenId == tokenId) with
              | some o =>
                if o.label = "No" ∨ o.label = "NO" then Side.NO else Side.YES
              | none => Side.YES
            else Side.YES
          let marketPrice0 : Option MarketPrice :=
            match env.orderBook with
            | some ob =>
              if ob.bids ≠ [] ∧ ob.asks ≠ [] then
                let bestBid := (ob.bids.headD ⟨0, 0⟩).price
                let bestAsk := (ob.asks.headD ⟨0, 0⟩).price
                some { bestBid := bestBid, bestAsk := bestAsk,
                       midPrice := (bestBid + bestAsk) / 2 }
              else none
            | none => none
          let sourcePrice := jsNumOr raw.price (1/2)
          let sourceSize := jsNumOr raw.size 0
          let executionTick1 :=
            match marketPrice0 with
            | some mp => if isBuy then toTick mp.bestAsk else toTick mp.bestBid
            | none => toTick sourcePrice
          let guard : Option (ℤ × Option MarketPrice) :=
            if executionTick1 ≥ MAX_TICK then
              let fresh : Option MarketPrice :=
                match env.freshOrderBook with
                | some ob =>
                  if ob.bids ≠ [] ∧ ob.asks ≠ [] then
                    let bestBid := (ob.bids.headD ⟨0, 0⟩).price
                    let bestAsk := (ob.asks.headD ⟨0, 0⟩).price
                    some { bestBid := bestBid, bestAsk := bestAsk,
                           midPrice := (bestBid + bestAsk) / 2 }
                  else none
                | none => none
              match fresh with
              | some f =>
                let et2 := if isBuy then toTick f.bestAsk else toTick f.bestBid
                if et2 ≥ MAX_TICK then none else some (et2, some f)
              | none => none
            else some (executionTick1, marketPrice0)
          match guard with
          | none => s1
          | some (executionTick, marketPrice) =>
            let executionPrice := fromTick executionTick
            let myShares0 :=
              match env.settings.mode with
              | TradeAmountMode.FIXED =>
                env.settings.fixedAmountUsd / maxQ (1/100) executionPrice
              | TradeAmountMode.PERCENTAGE =>
                sourceSize * env.settings.percentage
            let myShares1 :=
              if myShares0 < env.minOrderSizeShares then env.minOrderSizeShares
              else myShares0
            let sellClamped : Option ℚ :=
              if isBuy then some myShares1
              else
                let posKey := marketId ++ "-" ++ sideStr side
                let ownedShares :=
                  match findKey s1.positions posKey with
                  | some p => p.size
                  | none => 0
                let m2 := if myShares1 > ownedShares then ownedShares else myShares1
                if m2 ≤ 0 then none else some m2
            match sellClamped with
            | none => s1
            | some myShares =>
              let lossBlocked : Bool :=
                if isBuy then false
                else
                  let posKey := marketId ++ "-" ++ sideStr side
                  match findKey s1.positions posKey with
                  | some currentPos =>
                    if currentPos.size > 0 then
                      let entryTick := currentPos.entryTick.getD
                        (toTick currentPos.entryPrice)
                      let lossPercent :=
                        ((entryTick : ℚ) - (executionTick : ℚ)) / (entryTick : ℚ)
                      env.enableTradeFilters && decide (lossPercent > 1/10)
                    else false
                  | none => false
              if lossBlocked then s1
              else
                let slipBlocked : Bool :=
                  if env.enableTradeFilters ∧ 0 < env.expectedEdge then
                    match env.orderBook, marketPrice with
                    | some ob, some mp =>
                      let costUsd := myShares * executionPrice
                      ! (calculateExpectedSlippage
                          (mkDelayPenalty env.slippageDelayPenalty) mp ob
                          costUsd isBuy env.expectedEdge).shouldExecute
                    | _, _ => false
                  else false
                if slipBlocked then s1
                else if isBuy then
                  (updatePosition env.now s1
                    { marketId := marketId, marketName := marketName,
                      marketSlug := marketSlug, side := side,
                      outcomeLabel := outcomeLabel, sizeShares := myShares,
                      price := executionPrice, txHash := txHash,
                      actionReason := "COPY_TRADE",
                      sourcePrice := some sourcePrice,
                      latencyMs := some (maxI 0 (env.now - env.fetchTime)),
                      tokenId := some tokenId,
                      marketType := some marketType }).2
                else
                  tryClosePosition env.now env.livePrice s1 marketId side
                    CloseTrigger.COPY_TRADER_EVENT CloseCause.TARGET_SELLOFF
                    (some executionPrice) (some tokenId) (some outcomeLabel)

/-! ## The C1 copy-sell scenario -/

/-- The binary market model cached for market `M`: outcome 0 is `No` with
token `t0`, outcome 1 is `Yes` with token `t1`. -/
def c1model : NormalizedMarket :=
  { id := "M", question := "Q", slug := "q", type := MarketModelType.binary,
    outcomes := [ { tokenId := "t0", label := "No", price := 1/2 },
                  { tokenId := "t1", label := "Yes", price := 1/2 } ],
    isResolved := false, endDate := none }

/-- The `marketCache` entry for `M` carrying `c1model`. -/
def c1cacheEntry : MarketCacheEntry :=
  { id := "M", question := "Q", eventSlug := "q", slug := "q",
    outcomes := ["No", "Yes"], clobTokenIds := ["t0", "t1"], endTime := none,
    model := some c1model }

/-- The held C1 position: 30 YES shares of `M` entered at tick 480. -/
def c1pos : Position :=
  { posOpenHalf with size := 30, entryPrice := 12/25, entryTick := some 480,
                     investedUsd := 72/5 }

/-- The C1 ledger with the position under its canonical key `"M-t1"` (the key
`LedgerService.updatePosition` writes when a `tokenId` is supplied). -/
def c1ledger : Ledger :=
  { balance := 100, positions := [("M-t1", c1pos)], closedPositions := [],
    tradeEvents := [], marketCache := [("M", c1cacheEntry)],
    processedTxHashes := [] }

/-- The same ledger but with the position stored under the legacy key
`"M-YES"` that the engine's sell clamp reads. -/
def c1ledger2 : Ledger :=
  { c1ledger with positions := [("M-YES", c1pos)] }

/-- The source SELL of 200 `Yes` shares at 0.55. -/
def c1raw : RawActivity :=
  { id := "a1", transactionHash := some "h1", timestamp := 100, side := "SELL",
    outcome := "Yes", size := some 200, price := some (11/20),
    marketId := some "M", conditionId := none }

/-- The engine surroundings: best bid 0.55 / best ask 0.60, percentage
sizing at 10%, the config constants of `config.ts`. -/
def c1env : EngineEnv :=
  { botStartupTime := 0, now := 100000, fetchTime := 100000, blacklist := [],
    marketDetails := none,
    orderBook := some { bids := [⟨11/20, 1000⟩], asks := [⟨3/5, 500⟩] },
    freshOrderBook := none, livePrice := none,
    settings := { mode := TradeAmountMode.PERCENTAGE, percentage := 1/10,
                  fixedAmountUsd := 50 },
    enableTradeFilters := false, expectedEdge := 3/50,
    minOrderSizeShares := 1, slippageDelayPenalty := none }

/-- C1 (code bug): the copy-sell against the canonically keyed position is
silently skipped, while the identical ledger keyed under the legacy key is
closed exactly as the claim describes. -/
theorem copy_sell_skipped_by_legacy_key_lookup :
    processAutoTrade c1env c1ledger c1raw = c1ledger ∧
    (findKey c1ledger.positions "M-t1").map Position.size = some 30 ∧
    findKey c1ledger.positions ("M" ++ "-" ++ sideStr Side.YES) = none ∧
    c1ledger.closedPositions = [] ∧ c1ledger.tradeEvents = [] ∧
    (processAutoTrade c1env c1ledger2 c1raw).balance =
      c1ledger2.balance + 30 * (11/20) ∧
    (processAutoTrade c1env c1ledger2 c1raw).closedPositions.map
        (fun r => (r.size, r.exitTick, r.realizedPnL, r.closeTrigger,
          r.closeCause)) =
      [(30, 550, 21/10, "COPY_TRADER_EVENT", "TARGET_SELLOFF")] := by
  have e1 : ("M" ++ "-" ++ "YES" : String) = "M-YES" := by simp
  have e2 : ("M" ++ "-" ++ "t1" : String) = "M-t1" := by simp
  have hs1 : strUpper "SELL" = "SELL" := by decide
  have hs2 : strUpper "Yes" = "YES" := by decide
  have hs3 : strUpper "No" = "NO" := by decide
  have ht : toTick (11/20 : ℚ) = 550 := by
    have h : ((11/20 : ℚ) * 1000) = ((550 : ℤ) : ℚ) := by norm_num
    rw [toTick, TICK_SCALE, h, Int.floor_intCast]
    decide
  have hf : fromTick (550 : ℤ) = 11/20 := by
    have hc : clampTick (550 : ℤ) = 550 := by decide
    rw [fromTick, hc, TICK_SCALE]
    norm_num
  have hpr : parseReason "COPY_TRADER_EVENT|TARGET_SELLOFF" =
      ("COPY_TRADER_EVENT", "TARGET_SELLOFF") := by decide
  have hset : isSettlementReason "COPY_TRADER_EVENT|TARGET_SELLOFF" = false := by
    decide
  have hne : ("COPY_TRADER_EVENT-" ++ toString (100000 : ℤ)) ≠ "" := by decide
  refine ⟨?_, by simp [c1ledger, c1pos, posOpenHalf, findKey],
    by simp [c1ledger, sideStr, findKey], rfl, rfl, ?_, ?_⟩
  · simp [processAutoTrade, c1env, c1ledger, c1raw, c1model, c1cacheEntry,
      c1pos, posOpenHalf, findKey, sideStr, jsStrOr, jsNumOr, MAX_TICK,
      hs1, hs2, hs3, ht, e1, e2]
    try norm_num
    try simp
  · simp [processAutoTrade, tryClosePosition, tryCloseArgs, closingPos,
      getPriority, updatePosition, canonicalKeyOf, legacyKeyOf, migrateLegacyKey,
      markProcessed, c1env, c1ledger2, c1ledger, c1raw, c1model, c1cacheEntry,
      c1pos, posOpenHalf, findKey, setKey, delKey, sideStr, triggerStr, causeStr,
      jsStrOr, jsNumOr, MAX_TICK, absQ, maxQ, minQ,
      hs1, hs2, hs3, ht, hf, hpr, hset, hne, e1, e2]
    try norm_num [ht, hf, hne]
    try simp [ht, hf, hne]
  · simp [processAutoTrade, tryClosePosition, tryCloseArgs, closingPos,
      getPriority, updatePosition, canonicalKeyOf, legacyKeyOf, migrateLegacyKey,
      markProcessed, c1env, c1ledger2, c1ledger, c1raw, c1model, c1cacheEntry,
      c1pos, posOpenHalf, findKey, setKey, delKey, sideStr, triggerStr, causeStr,
      jsStrOr, jsNumOr, MAX_TICK, absQ, maxQ, minQ,
      hs1, hs2, hs3, ht, hf, hpr, hset, hne, e1, e2]
    try norm_num [ht, hf, hne]
    try simp [ht, hf, hne]

end PaperBot
